import Mathlib

set_option autoImplicit false

/-!
Verification development for the SystemV/LSB backend of the
golang service library (files `service_sysv_linux.go`, legacy variant,
and the unnamed canonical variant with `manageSymlinks`).

The Go code is shallowly embedded: the filesystem is a map from the exact
path strings the code uses to entries; every filesystem operation and
external command invocation is recorded in an event trace; process
termination via `os.Exit` is a distinguished outcome.  Environment
oracles model `exec.LookPath`, external command success, and I/O fault
injection for `os.Create`, `os.Chmod`, `os.Remove` and `os.Symlink`.
-/

namespace SysV

/-- A filesystem entry: a regular file carrying its permission mode,
a directory, or a symbolic link carrying its target path. -/
inductive Entry
  | file (mode : Nat)
  | dir
  | link (target : String)
  deriving DecidableEq, Repr

/-- Errors returned by the embedded operations.  Constructors mirror the
error values the Go code builds: the fixed `errNoUserServiceSystemV`,
the `Init already exists` error, wrapped link-management errors from
`manageSymlinks` (`Failed to create startup link ...` etc.), the wrapped
external-command error (`Failed to run ...`), and raw I/O errors. -/
inductive Err
  | noUserService
  | execPathFailed
  | alreadyExists (p : String)
  | createFailed (p : String)
  | chmodFailed (p : String)
  | symlinkFailed (p : String)
  | removeFailed (p : String)
  | startupLinkFailed (p : String)
  | shutdownLinkFailed (p : String)
  | startupLinkRemoveFailed (p : String)
  | shutdownLinkRemoveFailed (p : String)
  | cmdFailed (args : List String)
  | serviceCmdFailed (args : List String)
  | startCallbackFailed
  | stopCallbackFailed
  deriving DecidableEq, Repr

/-- A primitive side-effecting operation performed by the code. -/
inductive FsOp
  | create (p : String)
  | chmod (p : String) (mode : Nat)
  | symlink (target p : String)
  | remove (p : String)
  | runCmd (args : List String)
  deriving DecidableEq, Repr

/-- One entry of the event trace: an operation that succeeded, an
operation that failed with an error, a diagnostic printed to the error
stream, or a sleep (in milliseconds). -/
inductive Event
  | okOp (op : FsOp)
  | errOp (op : FsOp) (e : Err)
  | stderr (msg : String)
  | slept (ms : Nat)
  deriving DecidableEq, Repr

/-- Environment oracles: which executables `exec.LookPath` resolves,
whether an external command run succeeds, and fault injection for the
four mutating filesystem calls (a `true` oracle models an I/O error such
as a permission failure beyond what the filesystem state determines). -/
structure Env where
  lookPathOk : String → Bool
  runOk : List String → Bool
  createFail : String → Bool
  chmodFail : String → Bool
  removeFail : String → Bool
  symlinkFail : String → Bool

/-- Mutable state threaded through an operation: the filesystem and the
event trace accumulated so far. -/
structure St where
  fs : String → Option Entry
  events : List Event

/-- Outcome of a top-level operation: a value, a returned error, or
process termination via `os.Exit code`. -/
inductive Res (α : Type)
  | ok (a : α)
  | err (e : Err)
  | exited (code : Nat)
  deriving DecidableEq, Repr

/-- The service definition (`Config` in the Go code) restricted to the
fields the SystemV backend reads.  `userService` models
`Option.bool(optionUserService, optionUserServiceDefault)` and
`execPath` models the result of `s.execPath()`; both helpers live in
shared files of the repository outside the given sources, so they are
modelled from the spec as an externally supplied flag and resolved path. -/
structure Config where
  name : String
  displayName : String
  description : String
  userName : String
  workingDirectory : String
  chRoot : String
  arguments : List String
  userService : Bool
  execPath : Option String

/-- Pointwise update of the filesystem map. -/
def fsUpdate (fs : String → Option Entry) (p : String) (v : Option Entry) :
    String → Option Entry :=
  fun q => if q = p then v else fs q

/-- Append one event to the trace. -/
def addEvent (st : St) (e : Event) : St :=
  { st with events := st.events ++ [e] }

/-- `os.Create`: creates the file (mode 0666 = 438) unless fault
injection makes it fail. -/
def osCreate (env : Env) (p : String) (st : St) : St × Except Err Unit :=
  if env.createFail p then
    (addEvent st (.errOp (.create p) (.createFailed p)), .error (.createFailed p))
  else
    (addEvent { st with fs := fsUpdate st.fs p (some (.file 438)) } (.okOp (.create p)), .ok ())

/-- Changing the mode of an entry keeps its kind. -/
def chmodEntry (e : Entry) (mode : Nat) : Entry :=
  match e with
  | .file _ => .file mode
  | .dir => .dir
  | .link t => .link t

/-- `os.Chmod`: fails when the path does not exist or on injected fault. -/
def osChmod (env : Env) (p : String) (mode : Nat) (st : St) : St × Except Err Unit :=
  match st.fs p with
  | none => (addEvent st (.errOp (.chmod p mode) (.chmodFailed p)), .error (.chmodFailed p))
  | some e =>
    if env.chmodFail p then
      (addEvent st (.errOp (.chmod p mode) (.chmodFailed p)), .error (.chmodFailed p))
    else
      (addEvent { st with fs := fsUpdate st.fs p (some (chmodEntry e mode)) }
        (.okOp (.chmod p mode)), .ok ())

/-- `os.Symlink target p`: fails when `p` already exists (EEXIST) or on
injected fault; the error value `e` is the one the caller wraps it in. -/
def osSymlink (env : Env) (target p : String) (e : Err) (st : St) : St × Except Err Unit :=
  if (st.fs p).isSome ∨ env.symlinkFail p then
    (addEvent st (.errOp (.symlink target p) e), .error e)
  else
    (addEvent { st with fs := fsUpdate st.fs p (some (.link target)) }
      (.okOp (.symlink target p)), .ok ())

/-- `os.Remove p`: fails when `p` does not exist (ENOENT) or on injected
fault; the error value `e` is the one the caller wraps it in. -/
def osRemove (env : Env) (p : String) (e : Err) (st : St) : St × Except Err Unit :=
  if (st.fs p).isNone ∨ env.removeFail p then
    (addEvent st (.errOp (.remove p) e), .error e)
  else
    (addEvent { st with fs := fsUpdate st.fs p none } (.okOp (.remove p)), .ok ())

/-- Synchronous run of an external command (`exec.Cmd.Run` or the shared
`run` helper); success is decided by the environment oracle and the
error value `e` is the one the caller returns on failure. -/
def runCmdOp (env : Env) (args : List String) (e : Err) (st : St) : St × Except Err Unit :=
  if env.runOk args then
    (addEvent st (.okOp (.runCmd args)), .ok ())
  else
    (addEvent st (.errOp (.runCmd args) e), .error e)

/-- `sysv.configPath`: rejects user-scope service definitions, otherwise
returns the fixed script location. -/
def configPath (c : Config) : Except Err String :=
  if c.userService then .error .noUserService
  else .ok ("/etc/init.d/" ++ c.name)

/-- `determineDistroFlavour`: redhat when the Red-Hat function file
exists; process exit 1 with a diagnostic when the LSB function file is
absent; debian when `start-stop-daemon` resolves; lsb otherwise. -/
def determineDistroFlavour (env : Env) (st : St) : St × Res String :=
  if (st.fs "/etc/rc.d/init.d/functions").isSome then
    (st, .ok "redhat")
  else if (st.fs "/lib/lsb/init-functions").isNone then
    (addEvent st (.stderr "System is lacking LSB support (/lib/lsb/init-functions)"), .exited 1)
  else if env.lookPathOk "start-stop-daemon" then
    (st, .ok "debian")
  else
    (st, .ok "lsb")

/-- Default runlevels in which the service is started (canonical variant). -/
def defaultStartLevels : String := "2345"

/-- Default runlevels in which the service is stopped (canonical variant). -/
def defaultStopLevels : String := "016"

/-- Default priority for starting the service. -/
def defaultStartPriority : String := "50"

/-- Default priority for stopping the service. -/
def defaultStopPriority : String := "02"

/-- Go `strings.Split(s, "")`: one single-character string per rune. -/
def splitChars (s : String) : List String :=
  s.data.map fun ch => String.mk [ch]

/-- Path of the start activation link for one runlevel,
`fmt.Sprintf("%s/rc%s.d/S%s%s", base, lvl, defaultStartPriority, name)`. -/
def startLinkPath (base name lvl : String) : String :=
  base ++ "/rc" ++ lvl ++ ".d/S" ++ defaultStartPriority ++ name

/-- Path of the stop activation link for one runlevel,
`fmt.Sprintf("%s/rc%s.d/K%s%s", base, lvl, defaultStopPriority, name)`. -/
def stopLinkPath (base name lvl : String) : String :=
  base ++ "/rc" ++ lvl ++ ".d/K" ++ defaultStopPriority ++ name

/-- All start activation link paths, in loop order. -/
def startLinkPaths (base name : String) : List String :=
  (splitChars defaultStartLevels).map (startLinkPath base name)

/-- All stop activation link paths, in loop order. -/
def stopLinkPaths (base name : String) : List String :=
  (splitChars defaultStopLevels).map (stopLinkPath base name)

/-- The symlink-creation loop of the canonical `manageSymlinks`:
returns on the first failure, wrapping the error with `mk`. -/
def installLinks (env : Env) (confPath : String) (mk : String → Err) :
    List String → St → St × Except Err Unit
  | [], st => (st, .ok ())
  | p :: rest, st =>
    match osSymlink env confPath p (mk p) st with
    | (st1, .ok _) => installLinks env confPath mk rest st1
    | (st1, .error e) => (st1, .error e)

/-- The symlink-removal loop of the canonical `manageSymlinks`:
returns on the first failure, wrapping the error with `mk`. -/
def removeLinks (env : Env) (mk : String → Err) :
    List String → St → St × Except Err Unit
  | [], st => (st, .ok ())
  | p :: rest, st =>
    match osRemove env p (mk p) st with
    | (st1, .ok _) => removeLinks env mk rest st1
    | (st1, .error e) => (st1, .error e)

/-- Lift an `Except`-valued step into the `Res` outcome type. -/
def liftE (r : St × Except Err Unit) : St × Res Unit :=
  match r with
  | (st, .ok a) => (st, .ok a)
  | (st, .error e) => (st, .err e)

/-- `sysv.manageSymlinks` (canonical variant): prefer `chkconfig`, then
`update-rc.d`; otherwise create or remove the links directly under the
probed base directory, terminating the process when no `rc.d` layout is
found. -/
def manageSymlinks (env : Env) (c : Config) (confPath : String) (install : Bool)
    (st : St) : St × Res Unit :=
  if env.lookPathOk "chkconfig" then
    let args := if install then ["chkconfig", "--add", c.name]
                else ["chkconfig", "--del", c.name]
    liftE (runCmdOp env args (.cmdFailed args) st)
  else if env.lookPathOk "update-rc.d" then
    let args := if install then ["update-rc.d", c.name, "defaults"]
                else ["update-rc.d", "-f", c.name, "remove"]
    liftE (runCmdOp env args (.cmdFailed args) st)
  else
    if (st.fs "/etc/rc.d/").isNone ∧ (st.fs "/etc/rc0.d").isNone then
      (addEvent st (.stderr "FIXME: no suitable rc.d directory found in /etc"), .exited 1)
    else
      let base := if (st.fs "/etc/rc.d/").isSome then "/etc/rc.d" else "/etc"
      if install then
        match installLinks env confPath (fun p => .startupLinkFailed p)
            (startLinkPaths base c.name) st with
        | (st1, .error e) => (st1, .err e)
        | (st1, .ok _) =>
          liftE (installLinks env confPath (fun p => .shutdownLinkFailed p)
            (stopLinkPaths base c.name) st1)
      else
        match removeLinks env (fun p => .startupLinkRemoveFailed p)
            (startLinkPaths base c.name) st with
        | (st1, .error e) => (st1, .err e)
        | (st1, .ok _) =>
          liftE (removeLinks env (fun p => .shutdownLinkRemoveFailed p)
            (stopLinkPaths base c.name) st1)

/-- `sysv.Install` (canonical variant): config path, executable path,
flavour detection, existence check, script creation, chmod 0755 (493),
then link management. -/
def sysvInstall (env : Env) (c : Config) (st : St) : St × Res Unit :=
  match configPath c with
  | .error e => (st, .err e)
  | .ok confPath =>
    match c.execPath with
    | none => (st, .err .execPathFailed)
    | some _ =>
      match determineDistroFlavour env st with
      | (st1, .err e) => (st1, .err e)
      | (st1, .exited n) => (st1, .exited n)
      | (st1, .ok _flavour) =>
        if (st1.fs confPath).isSome then
          (st1, .err (.alreadyExists confPath))
        else
          match osCreate env confPath st1 with
          | (st2, .error e) => (st2, .err e)
          | (st2, .ok _) =>
            match osChmod env confPath 493 st2 with
            | (st3, .error e) => (st3, .err e)
            | (st3, .ok _) => manageSymlinks env c confPath true st3

/-- `sysv.Uninstall` (canonical variant): link management first, then
removal of the control script. -/
def sysvUninstall (env : Env) (c : Config) (st : St) : St × Res Unit :=
  match configPath c with
  | .error e => (st, .err e)
  | .ok cp =>
    match manageSymlinks env c cp false st with
    | (st1, .err e) => (st1, .err e)
    | (st1, .exited n) => (st1, .exited n)
    | (st1, .ok _) => liftE (osRemove env cp (.removeFailed cp) st1)

/-- The legacy symlink loop of `service_sysv_linux.go`: every failure is
skipped with `continue`, so errors are recorded but never returned. -/
def legacyInstallLinks (env : Env) (confPath : String) :
    List String → St → St
  | [], st => st
  | p :: rest, st =>
    legacyInstallLinks env confPath rest
      (osSymlink env confPath p (.symlinkFailed p) st).1

/-- `sysv.Install` (legacy variant, `service_sysv_linux.go`): identical
prelude, then direct symlink creation at `/etc/rc<N>.d` with failures
ignored, and an unconditional nil return. -/
def sysvInstallLegacy (env : Env) (c : Config) (st : St) : St × Res Unit :=
  match configPath c with
  | .error e => (st, .err e)
  | .ok confPath =>
    match c.execPath with
    | none => (st, .err .execPathFailed)
    | some _ =>
      match determineDistroFlavour env st with
      | (st1, .err e) => (st1, .err e)
      | (st1, .exited n) => (st1, .exited n)
      | (st1, .ok _flavour) =>
        if (st1.fs confPath).isSome then
          (st1, .err (.alreadyExists confPath))
        else
          match osCreate env confPath st1 with
          | (st2, .error e) => (st2, .err e)
          | (st2, .ok _) =>
            match osChmod env confPath 493 st2 with
            | (st3, .error e) => (st3, .err e)
            | (st3, .ok _) =>
              let st4 := legacyInstallLinks env confPath
                (["2", "3", "4", "5"].map fun i => "/etc/rc" ++ i ++ ".d/S50" ++ c.name) st3
              let st5 := legacyInstallLinks env confPath
                (["0", "1", "6"].map fun i => "/etc/rc" ++ i ++ ".d/K02" ++ c.name) st4
              (st5, .ok ())

/-- `sysv.Uninstall` (legacy variant): removes only the control script. -/
def sysvUninstallLegacy (env : Env) (c : Config) (st : St) : St × Res Unit :=
  match configPath c with
  | .error e => (st, .err e)
  | .ok cp => liftE (osRemove env cp (.removeFailed cp) st)

/-- `sysv.Start`: delegate to the generic service front-end. -/
def sysvStart (env : Env) (c : Config) (st : St) : St × Except Err Unit :=
  runCmdOp env ["service", c.name, "start"]
    (.serviceCmdFailed ["service", c.name, "start"]) st

/-- `sysv.Stop`: delegate to the generic service front-end. -/
def sysvStop (env : Env) (c : Config) (st : St) : St × Except Err Unit :=
  runCmdOp env ["service", c.name, "stop"]
    (.serviceCmdFailed ["service", c.name, "stop"]) st

/-- `sysv.Restart`: stop, abort on failure, sleep 50ms, start. -/
def sysvRestart (env : Env) (c : Config) (st : St) : St × Except Err Unit :=
  match sysvStop env c st with
  | (st1, .error e) => (st1, .error e)
  | (st1, .ok _) => sysvStart env c (addEvent st1 (.slept 50))

/-- A termination-class signal the supervisor waits for
(`syscall.SIGTERM` or `os.Interrupt`). -/
inductive TermSignal
  | sigterm
  | interrupt
  deriving DecidableEq, Repr

/-- Observable actions of the runtime supervisor. -/
inductive RunEvent
  | startCalled
  | signalObserved (s : TermSignal)
  | stopCalled
  deriving DecidableEq, Repr

/-- The embedded program, abstracted to the outcomes of its two
callbacks (`Interface.Start` and `Interface.Stop`); `none` is success. -/
structure Program where
  startErr : Option Err
  stopErr : Option Err

/-- `sysv.Run`: invoke Start; on failure return it at once; otherwise
block until the termination signal `sig` is observed, then invoke Stop
and return its outcome. -/
def sysvRun (p : Program) (sig : TermSignal) : List RunEvent × Option Err :=
  match p.startErr with
  | some e => ([.startCalled], some e)
  | none => ([.startCalled, .signalObserved sig, .stopCalled], p.stopErr)

end SysV

namespace SysV

/-!
Shallow embedding of the `sysvScript` text/template (canonical variant).
The template is transcribed as a list of segments: literal text, and
interpolation sites.  An interpolation site records which service-definition
field it draws from, the concrete value, and whether the template pipes the
value through the shell-quoting `cmd` function (`{{.X|cmd}}` versus `{{.X}}`).
Template conditionals (`{{if eq .Flavour ...}}`, `{{if .UserName}}` etc.)
become Lean conditionals on the same data; `{{join .StartLevels ""}}` and the
priority fields always receive the constants `2345`/`2 3 4 5`/`0 1 6`/`50`/`02`
that `Install` passes, so they are rendered as literals.  Braces of the shell
text are written as the escapes \x7b and \x7d.
-/

/-- The template field an interpolation site draws from. -/
inductive TField
  | name
  | displayName
  | description
  | path
  | userName
  | workingDirectory
  | chRoot
  | argument
  deriving DecidableEq, Repr

/-- One segment of the rendered script: literal text, or an interpolation
of a field value, `escaped = true` meaning the template applies `cmd`. -/
inductive Seg
  | lit (s : String)
  | interp (f : TField) (v : String) (escaped : Bool)
  deriving DecidableEq, Repr

/-- `{{range .Arguments}} {{.|cmd}}{{end}}`: a space then the cmd-quoted
argument, per argument. -/
def argSegs (c : Config) : List Seg :=
  (c.arguments.map fun a => [Seg.lit " ", .interp .argument a true]).flatten

/-- Header of the redhat branch (chkconfig comment block). -/
def redhatHeader (c : Config) : List Seg :=
  [Seg.lit "#\n# ", .interp .displayName c.displayName false,
   .lit "\n#\n# chkconfig:   2345 50 02\n# description: ",
   .interp .description c.description false,
   .lit "\n\n# Source function library.\n. /etc/rc.d/init.d/functions\n"]

/-- Header of the non-redhat branches (LSB INIT INFO block). -/
def lsbHeader (c : Config) : List Seg :=
  [Seg.lit "### BEGIN INIT INFO\n# Provides:          ", .interp .name c.name false,
   .lit "\n# Required-Start:    $local_fs $remote_fs $network $syslog\n# Required-Stop:     $local_fs $remote_fs $network $syslog\n# Default-Start:     2 3 4 5\n# Default-Stop:      0 1 6\n# Short-Description: ",
   .interp .displayName c.displayName false,
   .lit "\n# Description:       ", .interp .description c.description false,
   .lit "\n### END INIT INFO\n\n# Source function library.\n. /lib/lsb/init-functions\n"]

/-- The flavour-independent middle of the script (variables, override
files, precondition tests). -/
def commonMid (c : Config) (path : String) : List Seg :=
  [Seg.lit "\nCMD=\"", .interp .path path false,
   .lit "\"\nNAME=\"", .interp .name c.name false,
   .lit "\"\nDESC=\"", .interp .description c.description false,
   .lit "\"\n\n# The following can be overridden via configuration file\nPIDFILE=\"/var/run/$\x7bNAME\x7d.pid\"\nLOCKFILE=\"/var/lock/subsys/$\x7bNAME\x7d\"\n\n# Log output of $CMD\nSTDOUTLOG=\"/dev/null\"\nSTDERRLOG=\"/dev/null\"\n\n# Source configuration defaults to override above as appropriate.\n! test -e /etc/default/$\x7bNAME\x7d   || . /etc/default/$\x7bNAME\x7d\n! test -e /etc/sysconfig/$\x7bNAME\x7d || . /etc/sysconfig/$\x7bNAME\x7d\ntest $(id -u) -eq \"0\"            || exit 4 # LSB exit: insufficient permissions\ntest -x $\x7bCMD\x7d                   || exit 5 # LSB exit: program not installed\ntest -d $(dirname $LOCKFILE)     || mkdir -p $(dirname $LOCKFILE)\n"]

/-- Start/stop bodies of the redhat branch.  Note that
`{{if .UserName}}--user={{.UserName}}{{end}}` interpolates the user name
without the `cmd` quoting transform. -/
def redhatBody (c : Config) : List Seg :=
  [Seg.lit "\nget_status() \x7b\n    status -p \"$PIDFILE\" \"$CMD\"\n\x7d\n\nstart() \x7b\n    get_status &>/dev/null && return 0\n    echo -n $\"Starting $\x7bDESC\x7d: \"\n    daemon --pidfile=\"$PIDFILE\" "]
  ++ (if c.userName = "" then []
      else [Seg.lit "--user=", .interp .userName c.userName false])
  ++ [Seg.lit " \\\n\t   \"$CMD "]
  ++ argSegs c
  ++ [Seg.lit " </dev/null >$STDOUTLOG 2>$STDERRLOG & echo \\$! > $PIDFILE\"\n    sleep 0.5 # wait briefly to see if service failed to start\n    get_status &>/dev/null && success || failure\n    RETVAL=$?\n    [ $RETVAL -eq 0 ] &&  touch \"$LOCKFILE\" || rm -f \"$PIDFILE\"\n    echo\n    return $RETVAL\n\x7d\n\nstop() \x7b\n    get_status &>/dev/null || return 0\n    echo -n $\"Stopping $\x7bDESC\x7d: \"\n    killproc -p \"$PIDFILE\" \"$CMD\" -TERM\n    RETVAL=$?\n    [ $RETVAL -eq 0 ] && rm -f \"$LOCKFILE\" \"$PIDFILE\" || rm -f \"$PIDFILE\"\n    echo\n    return $RETVAL\n\x7d"]

/-- The `get_status` helper shared by the debian and lsb branches. -/
def lsbStatusHelper : List Seg :=
  [Seg.lit "\nif type status_of_proc &>/dev/null; then\t# newer LSB versions only\n    get_status() \x7b\n        status_of_proc $([ -e $PIDFILE ] && echo -p $PIDFILE) \"$CMD\" \"$NAME\"\n    \x7d\nelse\n    get_status() \x7b\n\tpidofproc $([ -e $PIDFILE ] && echo -p $PIDFILE) \"$CMD\" >/dev/null\n\tRETVAL=$?\n\tif [ $RETVAL -eq 0 ]; then\n\t    log_success_msg \"$NAME is running\"\n\telif [ $RETVAL -eq 4 ]; then\n\t    log_failure_msg \"could not access PID file for $NAME\"\n\telse\n\t    log_failure_msg \"$NAME is not running\"\n\tfi\n\treturn $RETVAL\n    \x7d\nfi\n"]

/-- Start/stop bodies of the debian branch: chroot, chdir, chuid and
every argument go through `cmd`. -/
def debianBody (c : Config) : List Seg :=
  [Seg.lit "\nstart() \x7b\n    log_daemon_msg \"Starting $\x7bDESC\x7d\"\n    start-stop-daemon --start \\\n    "]
  ++ (if c.chRoot = "" then []
      else [Seg.lit "--chroot ", .interp .chRoot c.chRoot true])
  ++ [Seg.lit " \\\n    "]
  ++ (if c.workingDirectory = "" then []
      else [Seg.lit "--chdir ", .interp .workingDirectory c.workingDirectory true])
  ++ [Seg.lit " \\\n    "]
  ++ (if c.userName = "" then []
      else [Seg.lit "--chuid ", .interp .userName c.userName true])
  ++ [Seg.lit " \\\n    --pidfile \"$PIDFILE\" \\\n    --background \\\n    --make-pidfile \\\n    --exec \"$CMD\" -- "]
  ++ argSegs c
  ++ [Seg.lit "\n    log_end_msg  $?\n\x7d\n\nstop() \x7b\n    log_daemon_msg \"Stopping $\x7bDESC\x7d\"\n    start-stop-daemon --stop --pidfile \"$PIDFILE\" --quiet\n    RETVAL=$?\n    rm -f \"$PIDFILE\"\n    log_end_msg $RETVAL\n\x7d"]

/-- Start/stop bodies of the generic LSB fallback branch: the working
directory and every argument go through `cmd`. -/
def lsbBody (c : Config) : List Seg :=
  [Seg.lit "\nstart() \x7b\n    get_status &>/dev/null && return 0\n    echo -n $\"Starting $DESC: $\x7bNAME\x7d\"\n    "]
  ++ (if c.workingDirectory = "" then []
      else [Seg.lit "cd ", .interp .workingDirectory c.workingDirectory true])
  ++ [Seg.lit "\n    \"$CMD\" "]
  ++ argSegs c
  ++ [Seg.lit " </dev/null >\"$STDOUTLOG\" 2>\"$STDERRLOG\" &\n    echo $! > \"$PIDFILE\"\n    sleep 0.5 # wait briefly to see if service crashed\n    get_status &>/dev/null\n    RETVAL=$?\n    if [ $RETVAL -eq 0 ]; then\n\t    log_success_msg\n\t    touch \"$LOCKFILE\"\n    else\n\t    log_failure_msg\n\t    rm -f \"$PIDFILE\"\n    fi\n    return $RETVAL\n\x7d\n\nstop() \x7b\n    get_status &>/dev/null || return 0\n    echo -n $\"Stopping $\x7bDESC\x7d: $\x7bNAME\x7d\"\n    killproc -p \"$PIDFILE\" \"$CMD\" -TERM\n    RETVAL=$?\n    if [ $RETVAL -eq 0 ]; then\n\t    log_success_msg\n\t    rm -f \"$LOCKFILE\"\n    else\n\t    log_failure_msg\n    fi\n    rm -f \"$PIDFILE\"\n    return $RETVAL\n\x7d"]

/-- The flavour-independent dispatch trailer of the script. -/
def scriptTrailer : List Seg :=
  [Seg.lit "\n\ncase \"$1\" in\n    start|stop)\n\t$1\n\t;;\n    restart|force-reload)\n\tstop\n\tstart\n\t;;\n    status)\n\tget_status\n\t;;\n    *)\n\techo $\"Usage: $0 \x7bstart|stop|status|restart|force-reload\x7d\" >&2\n\texit 2 # LSB: invalid or excess arguments\nesac\n"]

/-- The full rendered script of the canonical `sysvScript` template, as
a segment list, for a given service definition, resolved executable path
and detected flavour. -/
def scriptSegs (c : Config) (path flavour : String) : List Seg :=
  [Seg.lit "#!/bin/bash\n"]
  ++ (if flavour = "redhat" then redhatHeader c else lsbHeader c)
  ++ commonMid c path
  ++ (if flavour = "redhat" then redhatBody c
      else lsbStatusHelper
        ++ (if flavour = "debian" then debianBody c else lsbBody c))
  ++ scriptTrailer

/-- Is this template field one of the user-supplied values named by the
quoting invariant (Arguments, WorkingDirectory, UserName, ChRoot)? -/
def userField (f : TField) : Bool :=
  match f with
  | .userName => true
  | .workingDirectory => true
  | .chRoot => true
  | .argument => true
  | _ => false

/-- A segment violating the quoting invariant: an interpolation of a
user-supplied value that does not go through `cmd`. -/
def segUnsafe (s : Seg) : Bool :=
  match s with
  | .interp f _ false => userField f
  | _ => false

end SysV

namespace SysV

/-- An event that is not a failed operation. -/
def okEvent : Event → Bool
  | .errOp _ _ => false
  | _ => true

/-- An event that belongs to activation-link management rather than to
the control script at `cp`: a successful external link tool run, or a
successful removal of some path other than `cp`. -/
def linkMgmtEvent (cp : String) : Event → Bool
  | .okOp (.runCmd _) => true
  | .okOp (.remove p) => !(p == cp)
  | _ => false

/-- Error-surfacing contract for a `Res`-valued step starting from trace
`old`: the step only appends events, and either no attempted operation
failed, or the run stopped at the first failing operation, whose error
is exactly the returned one.  In particular a successful result can hide
no failed operation, and a failed operation is never followed by
further operations. -/
def ioSurfaced (old : List Event) (st1 : St) (r : Res Unit) : Prop :=
  ∃ delta, st1.events = old ++ delta ∧
    ((∀ e ∈ delta, okEvent e = true) ∨
      ∃ pre op er, delta = pre ++ [Event.errOp op er] ∧
        (∀ e ∈ pre, okEvent e = true) ∧ r = Res.err er)

/-- Error-surfacing contract for an `Except`-valued step. -/
def ioSurfacedE (old : List Event) (st1 : St) (r : Except Err Unit) : Prop :=
  ∃ delta, st1.events = old ++ delta ∧
    ((∀ e ∈ delta, okEvent e = true) ∨
      ∃ pre op er, delta = pre ++ [Event.errOp op er] ∧
        (∀ e ∈ pre, okEvent e = true) ∧ r = Except.error er)

/-- The base runlevel directory as the claim describes it: the Red-Hat
nested path when present, the flat path otherwise. -/
def claimBase (st : St) : String :=
  if (st.fs "/etc/rc.d/").isSome then "/etc/rc.d" else "/etc"

/-- The start activation links exactly as the claim lists them:
`<base>/rc<N>.d/S50<Name>` for N in 2, 3, 4, 5. -/
def claimStartLinks (base name : String) : List String :=
  ["2", "3", "4", "5"].map fun n => base ++ "/rc" ++ n ++ ".d/S50" ++ name

/-- The stop activation links exactly as the claim lists them:
`<base>/rc<N>.d/K02<Name>` for N in 0, 1, 6. -/
def claimStopLinks (base name : String) : List String :=
  ["0", "1", "6"].map fun n => base ++ "/rc" ++ n ++ ".d/K02" ++ name

/-- All activation links the claim describes. -/
def claimLinks (base name : String) : List String :=
  claimStartLinks base name ++ claimStopLinks base name

/-- Environment with no link-management tools on the search path,
succeeding external commands, and no injected I/O faults. -/
def envNoTools : Env :=
  ⟨fun _ => false, fun _ => true, fun _ => false, fun _ => false, fun _ => false, fun _ => false⟩

/-- Environment where only `chkconfig` resolves on the search path. -/
def envChkconfig : Env :=
  ⟨fun x => x == "chkconfig", fun _ => true, fun _ => false, fun _ => false,
   fun _ => false, fun _ => false⟩

/-- A host filesystem with LSB support and a flat `/etc/rc0.d` layout. -/
def fsLsbFlat : String → Option Entry := fun p =>
  if p = "/lib/lsb/init-functions" then some (.file 420)
  else if p = "/etc/rc0.d" then some .dir
  else none

/-- Initial state over `fsLsbFlat` with an empty trace. -/
def stLsbFlat : St := ⟨fsLsbFlat, []⟩

/-- Like `stLsbFlat` but with a stale activation link already present at
`/etc/rc2.d/S50n`, so that creating that link fails. -/
def stStaleLink : St :=
  ⟨fun p => if p = "/etc/rc2.d/S50n" then some (.file 493) else fsLsbFlat p, []⟩

/-- A host filesystem with LSB support but no rc.d layout at all. -/
def fsNoRcd : String → Option Entry := fun p =>
  if p = "/lib/lsb/init-functions" then some (.file 420) else none

/-- Initial state over `fsNoRcd` with an empty trace. -/
def stNoRcd : St := ⟨fsNoRcd, []⟩

/-- A minimal system-scope service definition named `n`. -/
def cfgDemo : Config := ⟨"n", "", "", "", "", "", [], false, some "/usr/bin/n"⟩

/-- A user-scope service definition. -/
def cfgUser : Config := ⟨"n", "", "", "", "", "", [], true, some "/usr/bin/n"⟩

/-- A service definition whose user name carries shell metacharacters. -/
def cfgMeta : Config :=
  ⟨"demo", "Demo", "A demo", "u;touch /tmp/pwned", "", "", ["a b"], false, some "/usr/bin/demo"⟩

/-- Environment where only `start-stop-daemon` resolves on the search path. -/
def envSSD : Env :=
  ⟨fun x => x == "start-stop-daemon", fun _ => true, fun _ => false, fun _ => false,
   fun _ => false, fun _ => false⟩

/-- Environment where the `service n stop` front-end invocation fails. -/
def envStopFails : Env :=
  ⟨fun _ => false, fun args => !(args == ["service", "n", "stop"]), fun _ => false,
   fun _ => false, fun _ => false, fun _ => false⟩

/-- Like `stLsbFlat` but with a control script already installed at
`/etc/init.d/n`. -/
def stScriptExists : St :=
  ⟨fun p => if p = "/etc/init.d/n" then some (.file 493) else fsLsbFlat p, []⟩

end SysV

namespace SysV

/-- On a non-exiting run, flavour detection leaves the state untouched. -/
theorem flavour_ok_fst {env : Env} {st st' : St} {f : String}
    (h : determineDistroFlavour env st = (st', .ok f)) : st' = st := by
  unfold determineDistroFlavour at h
  split_ifs at h <;> simp only [Prod.mk.injEq] at h
  · exact h.1.symm
  · exact Res.noConfusion h.2
  · exact h.1.symm
  · exact h.1.symm

/-- When either init-function library file is present, flavour detection
returns a flavour without exiting and without touching the state. -/
theorem flavour_returns {env : Env} {st : St}
    (hfl : (st.fs "/etc/rc.d/init.d/functions").isSome = true ∨
      (st.fs "/lib/lsb/init-functions").isSome = true) :
    ∃ f, determineDistroFlavour env st = (st, .ok f) := by
  unfold determineDistroFlavour
  rcases hfl with h | h
  · exact ⟨"redhat", by simp [h]⟩
  · by_cases hrh : (st.fs "/etc/rc.d/init.d/functions").isSome = true
    · exact ⟨"redhat", by simp [hrh]⟩
    · have hnn : (st.fs "/lib/lsb/init-functions").isNone = false := by
        rcases Option.isSome_iff_exists.mp h with ⟨v, hv⟩
        simp [hv]
      by_cases hssd : env.lookPathOk "start-stop-daemon" = true
      · exact ⟨"debian", by simp [hrh, hnn, hssd]⟩
      · exact ⟨"lsb", by simp [hrh, hnn, hssd]⟩

/-- Success characterization of `osCreate`. -/
theorem osCreate_ok {env : Env} {p : String} {st st1 : St}
    (h : osCreate env p st = (st1, .ok ())) :
    env.createFail p = false ∧
    st1.fs = fsUpdate st.fs p (some (.file 438)) ∧
    st1.events = st.events ++ [.okOp (.create p)] := by
  unfold osCreate at h
  split_ifs at h with hc
  · simp only [Prod.mk.injEq] at h
    exact Except.noConfusion h.2
  · simp only [Prod.mk.injEq] at h
    obtain ⟨h1, -⟩ := h
    subst h1
    exact ⟨by simpa using hc, rfl, rfl⟩

/-- Success characterization of `osChmod`. -/
theorem osChmod_ok {env : Env} {p : String} {mode : Nat} {st st1 : St}
    (h : osChmod env p mode st = (st1, .ok ())) :
    ∃ en, st.fs p = some en ∧
      st1.fs = fsUpdate st.fs p (some (chmodEntry en mode)) ∧
      st1.events = st.events ++ [.okOp (.chmod p mode)] := by
  unfold osChmod at h
  rcases hfs : st.fs p with - | en
  · rw [hfs] at h
    simp only [Prod.mk.injEq] at h
    exact Except.noConfusion h.2
  · rw [hfs] at h
    split_ifs at h with hc
    · simp only [Prod.mk.injEq] at h
      exact Except.noConfusion h.2
    · simp only [Prod.mk.injEq] at h
      obtain ⟨h1, -⟩ := h
      subst h1
      exact ⟨en, rfl, rfl, rfl⟩

/-- Success characterization of `osSymlink`. -/
theorem osSymlink_ok {env : Env} {t p : String} {e : Err} {st st1 : St}
    (h : osSymlink env t p e st = (st1, .ok ())) :
    st.fs p = none ∧
    st1.fs = fsUpdate st.fs p (some (.link t)) ∧
    st1.events = st.events ++ [.okOp (.symlink t p)] := by
  unfold osSymlink at h
  split_ifs at h with hc
  · simp only [Prod.mk.injEq] at h
    exact Except.noConfusion h.2
  · simp only [Prod.mk.injEq] at h
    obtain ⟨h1, -⟩ := h
    subst h1
    rcases not_or.mp hc with ⟨h1, -⟩
    refine ⟨?_, rfl, rfl⟩
    rcases hfs : st.fs p with - | v
    · rfl
    · exact absurd (by simp [hfs]) h1

/-- Success characterization of `osRemove`. -/
theorem osRemove_ok {env : Env} {p : String} {e : Err} {st st1 : St}
    (h : osRemove env p e st = (st1, .ok ())) :
    (st.fs p).isSome = true ∧
    st1.fs = fsUpdate st.fs p none ∧
    st1.events = st.events ++ [.okOp (.remove p)] := by
  unfold osRemove at h
  split_ifs at h with hc
  · simp only [Prod.mk.injEq] at h
    exact Except.noConfusion h.2
  · simp only [Prod.mk.injEq] at h
    obtain ⟨h1, -⟩ := h
    subst h1
    rcases not_or.mp hc with ⟨h1, -⟩
    refine ⟨?_, rfl, rfl⟩
    rcases hfs : st.fs p with - | v
    · exact absurd (by simp [hfs]) h1
    · simp

/-- Success characterization of `runCmdOp`. -/
theorem runCmdOp_ok {env : Env} {args : List String} {e : Err} {st st1 : St}
    (h : runCmdOp env args e st = (st1, .ok ())) :
    env.runOk args = true ∧
    st1.fs = st.fs ∧
    st1.events = st.events ++ [.okOp (.runCmd args)] := by
  unfold runCmdOp at h
  split_ifs at h with hc
  · simp only [Prod.mk.injEq] at h
    obtain ⟨h1, -⟩ := h
    subst h1
    exact ⟨hc, rfl, rfl⟩
  · simp only [Prod.mk.injEq] at h
    exact Except.noConfusion h.2

end SysV

namespace SysV

/-- Success characterization of the symlink-creation loop: every path was
fresh, afterwards exactly those paths hold links to the script, and the
trace gained one successful symlink event per path, in order. -/
theorem installLinks_ok {env : Env} {cp : String} {mk : String → Err} :
    ∀ (ps : List String) (st st1 : St), installLinks env cp mk ps st = (st1, .ok ()) →
      (∀ p ∈ ps, st.fs p = none) ∧
      (∀ q, st1.fs q = if q ∈ ps then some (.link cp) else st.fs q) ∧
      st1.events = st.events ++ ps.map (fun p => Event.okOp (.symlink cp p)) := by
  intro ps
  induction ps with
  | nil =>
    intro st st1 h
    simp only [installLinks, Prod.mk.injEq] at h
    obtain ⟨h1, -⟩ := h
    subst h1
    exact ⟨by simp, fun q => by simp, by simp⟩
  | cons p rest ih =>
    intro st st1 h
    simp only [installLinks] at h
    rcases hs : osSymlink env cp p (mk p) st with ⟨stA, rA⟩
    rw [hs] at h
    rcases rA with e | ⟨⟩
    · simp only [Prod.mk.injEq] at h
      exact Except.noConfusion h.2
    · obtain ⟨hfr, hfs, hev⟩ := ih stA st1 h
      obtain ⟨hnone, hAfs, hAev⟩ := osSymlink_ok hs
      refine ⟨?_, ?_, ?_⟩
      · intro r hr
        rcases List.mem_cons.mp hr with rfl | hr'
        · exact hnone
        · have := hfr r hr'
          rw [hAfs] at this
          unfold fsUpdate at this
          by_cases hrp : r = p
          · simp [hrp] at this
          · simpa [hrp] using this
      · intro q
        have := hfs q
        rw [hAfs] at this
        unfold fsUpdate at this
        by_cases hq1 : q ∈ rest
        · simp [hq1, List.mem_cons] at this ⊢
          exact this
        · by_cases hq2 : q = p
          · simp [hq1, hq2, List.mem_cons] at this ⊢
            exact this
          · simp [hq1, hq2, List.mem_cons] at this ⊢
            exact this
      · rw [hev, hAev]
        simp

/-- Success characterization of the symlink-removal loop: afterwards
exactly those paths are gone, and the trace gained one successful
removal event per path, in order. -/
theorem removeLinks_ok {env : Env} {mk : String → Err} :
    ∀ (ps : List String) (st st1 : St), removeLinks env mk ps st = (st1, .ok ()) →
      (∀ q, st1.fs q = if q ∈ ps then none else st.fs q) ∧
      st1.events = st.events ++ ps.map (fun p => Event.okOp (.remove p)) := by
  intro ps
  induction ps with
  | nil =>
    intro st st1 h
    simp only [removeLinks, Prod.mk.injEq] at h
    obtain ⟨h1, -⟩ := h
    subst h1
    exact ⟨fun q => by simp, by simp⟩
  | cons p rest ih =>
    intro st st1 h
    simp only [removeLinks] at h
    rcases hs : osRemove env p (mk p) st with ⟨stA, rA⟩
    rw [hs] at h
    rcases rA with e | ⟨⟩
    · simp only [Prod.mk.injEq] at h
      exact Except.noConfusion h.2
    · obtain ⟨hfs, hev⟩ := ih stA st1 h
      obtain ⟨-, hAfs, hAev⟩ := osRemove_ok hs
      refine ⟨?_, ?_⟩
      · intro q
        have := hfs q
        rw [hAfs] at this
        unfold fsUpdate at this
        by_cases hq1 : q ∈ rest
        · simp [hq1, List.mem_cons] at this ⊢
          exact this
        · by_cases hq2 : q = p
          · simp [hq1, hq2, List.mem_cons] at this ⊢
            exact this
          · simp [hq1, hq2, List.mem_cons] at this ⊢
            exact this
      · rw [hev, hAev]
        simp

/-- Every piece of `splitChars` is a single character. -/
theorem splitChars_length {s : String} {x : String} (h : x ∈ splitChars s) :
    x.length = 1 := by
  unfold splitChars at h
  rcases List.mem_map.mp h with ⟨c, -, rfl⟩
  rfl

/-- Length of a start activation link path. -/
theorem startLinkPath_length (base name lvl : String) :
    (startLinkPath base name lvl).length =
      base.length + lvl.length + name.length + 9 := by
  unfold startLinkPath defaultStartPriority
  simp only [String.length_append]
  have h1 : ("/rc" : String).length = 3 := by decide
  have h2 : (".d/S" : String).length = 4 := by decide
  have h3 : ("50" : String).length = 2 := by decide
  omega

/-- Length of a stop activation link path. -/
theorem stopLinkPath_length (base name lvl : String) :
    (stopLinkPath base name lvl).length =
      base.length + lvl.length + name.length + 9 := by
  unfold stopLinkPath defaultStopPriority
  simp only [String.length_append]
  have h1 : ("/rc" : String).length = 3 := by decide
  have h2 : (".d/K" : String).length = 4 := by decide
  have h3 : ("02" : String).length = 2 := by decide
  omega

/-- Every activation link path has length `base + name + 10`. -/
theorem mem_links_length {base name q : String}
    (h : q ∈ startLinkPaths base name ++ stopLinkPaths base name) :
    q.length = base.length + name.length + 10 := by
  rcases List.mem_append.mp h with h' | h'
  · unfold startLinkPaths at h'
    rcases List.mem_map.mp h' with ⟨lvl, hlvl, rfl⟩
    rw [startLinkPath_length, splitChars_length hlvl]
    omega
  · unfold stopLinkPaths at h'
    rcases List.mem_map.mp h' with ⟨lvl, hlvl, rfl⟩
    rw [stopLinkPath_length, splitChars_length hlvl]
    omega

/-- The script path is never one of the two probe keys. -/
theorem configPath_ne_probes (n : String) :
    ("/etc/init.d/" ++ n) ≠ "/etc/rc.d/" ∧ ("/etc/init.d/" ++ n) ≠ "/etc/rc0.d" := by
  constructor <;> intro h <;> have hl := congrArg String.length h <;>
    rw [String.length_append] at hl <;>
    revert hl <;> have e1 : ("/etc/init.d/" : String).length = 12 := by decide
  · have e2 : ("/etc/rc.d/" : String).length = 10 := by decide
    rw [e1, e2]
    omega
  · have e2 : ("/etc/rc0.d" : String).length = 10 := by decide
    rw [e1, e2]
    omega

/-- Activation link paths never collide with the probe keys or the
script path, for either base directory. -/
theorem links_ne_special {base name q : String}
    (hb : base = "/etc/rc.d" ∨ base = "/etc")
    (h : q ∈ startLinkPaths base name ++ stopLinkPaths base name) :
    q ≠ "/etc/rc.d/" ∧ q ≠ "/etc/rc0.d" ∧ q ≠ "/etc/init.d/" ++ name := by
  have hlen := mem_links_length h
  have hblen : base.length = 9 ∨ base.length = 4 := by
    rcases hb with rfl | rfl
    · left; decide
    · right; decide
  refine ⟨?_, ?_, ?_⟩
  · intro hq
    rw [hq] at hlen
    have e2 : ("/etc/rc.d/" : String).length = 10 := by decide
    rw [e2] at hlen
    omega
  · intro hq
    rw [hq] at hlen
    have e2 : ("/etc/rc0.d" : String).length = 10 := by decide
    rw [e2] at hlen
    omega
  · intro hq
    rw [hq, String.length_append] at hlen
    have e1 : ("/etc/init.d/" : String).length = 12 := by decide
    rw [e1] at hlen
    omega

end SysV

namespace SysV

/-- `liftE` returns a success exactly when the underlying step does. -/
theorem liftE_ok {x : St × Except Err Unit} {st1 : St}
    (h : liftE x = (st1, .ok ())) : x = (st1, .ok ()) := by
  rcases x with ⟨stA, rA⟩
  rcases rA with e | ⟨⟩
  · simp only [liftE, Prod.mk.injEq] at h
    exact Res.noConfusion h.2
  · simp only [liftE, Prod.mk.injEq] at h
    rw [h.1]


/-- Decomposition of a successful canonical `Install`: the definition is
system scope, the script path was free, and after script creation and
chmod the state `stC` holds the mode-0755 script and the two successful
events, from which link management succeeded. -/
theorem sysvInstall_ok_elim {env : Env} {c : Config} {st0 st1 : St}
    (h : sysvInstall env c st0 = (st1, .ok ())) :
    c.userService = false ∧
    st0.fs ("/etc/init.d/" ++ c.name) = none ∧
    ∃ stC,
      (∀ q, stC.fs q = if q = "/etc/init.d/" ++ c.name
        then some (Entry.file 493) else st0.fs q) ∧
      stC.events = st0.events ++
        [Event.okOp (.create ("/etc/init.d/" ++ c.name)),
         Event.okOp (.chmod ("/etc/init.d/" ++ c.name) 493)] ∧
      manageSymlinks env c ("/etc/init.d/" ++ c.name) true stC = (st1, .ok ()) := by
  unfold sysvInstall at h
  split at h
  next e heq =>
    simp at h
  next confPath heq =>
  have hus : c.userService = false ∧ confPath = "/etc/init.d/" ++ c.name := by
    unfold configPath at heq
    cases husv : c.userService with
    | true =>
      rw [husv] at heq
      simp at heq
    | false =>
      rw [husv] at heq
      simp at heq
      exact ⟨rfl, heq.symm⟩
  obtain ⟨hus, rfl⟩ := hus
  split at h
  next heqp =>
    simp at h
  next pv heqp =>
  split at h
  next stF e heq2 =>
    simp at h
  next stF n heq2 =>
    simp at h
  next stF f heq2 =>
  have hstF := flavour_ok_fst heq2
  rw [hstF] at h
  split at h
  next hex =>
    simp at h
  next hex =>
  have hfs0 : st0.fs ("/etc/init.d/" ++ c.name) = none := by
    rcases hx : st0.fs ("/etc/init.d/" ++ c.name) with - | v
    · rfl
    · rw [hx] at hex
      simp at hex
  split at h
  next stA e heqc =>
    simp at h
  next stA a heqc =>
  obtain ⟨-, hAfs, hAev⟩ := osCreate_ok heqc
  split at h
  next stB e heqm =>
    simp at h
  next stB b heqm =>
  obtain ⟨en, hen, hBfs, hBev⟩ := osChmod_ok heqm
  have hen438 : en = Entry.file 438 := by
    rw [hAfs] at hen
    unfold fsUpdate at hen
    simp at hen
    exact hen.symm
  subst hen438
  refine ⟨hus, hfs0, stB, ?_, ?_, h⟩
  · intro q
    rw [hBfs, hAfs]
    unfold fsUpdate
    by_cases hq : q = "/etc/init.d/" ++ c.name <;> simp [hq, chmodEntry]
  · rw [hBev, hAev]
    simp

/-- Decomposition of a successful manual (no-tool) link installation. -/
theorem manual_install_elim {env : Env} {c : Config} {cp : String} {st st1 : St}
    (hchk : env.lookPathOk "chkconfig" = false)
    (hupd : env.lookPathOk "update-rc.d" = false)
    (h : manageSymlinks env c cp true st = (st1, .ok ())) :
    ∃ base, base = (if (st.fs "/etc/rc.d/").isSome then "/etc/rc.d" else "/etc") ∧
      (∀ p ∈ startLinkPaths base c.name ++ stopLinkPaths base c.name, st.fs p = none) ∧
      (∀ q, st1.fs q = if q ∈ startLinkPaths base c.name ++ stopLinkPaths base c.name
            then some (Entry.link cp) else st.fs q) ∧
      st1.events = st.events ++
        (startLinkPaths base c.name ++ stopLinkPaths base c.name).map
          (fun p => Event.okOp (.symlink cp p)) := by
  unfold manageSymlinks at h
  simp only [hchk, hupd, Bool.false_eq_true, if_false, reduceIte] at h
  split at h
  next hcond =>
    simp at h
  next hcond =>
  refine ⟨if (st.fs "/etc/rc.d/").isSome then "/etc/rc.d" else "/etc", rfl, ?_⟩
  split at h
  next stA e h1 =>
    simp at h
  next stA a h1 =>
  obtain ⟨hf1, hfs1, hev1⟩ := installLinks_ok _ _ _ h1
  have h2 := liftE_ok h
  obtain ⟨hf2, hfs2, hev2⟩ := installLinks_ok _ _ _ h2
  refine ⟨?_, ?_, ?_⟩
  · intro p hp
    rcases List.mem_append.mp hp with hp' | hp'
    · exact hf1 p hp'
    · have := hf2 p hp'
      rw [hfs1] at this
      by_cases hm : p ∈ startLinkPaths (if (st.fs "/etc/rc.d/").isSome then "/etc/rc.d" else "/etc") c.name
      · simp [hm] at this
      · simpa [hm] using this
  · intro q
    have := hfs2 q
    rw [hfs1] at this
    by_cases hm2 : q ∈ stopLinkPaths (if (st.fs "/etc/rc.d/").isSome then "/etc/rc.d" else "/etc") c.name
    · simp [hm2] at this ⊢
      exact this
    · by_cases hm1 : q ∈ startLinkPaths (if (st.fs "/etc/rc.d/").isSome then "/etc/rc.d" else "/etc") c.name
      · simp [hm1, hm2] at this ⊢
        exact this
      · simp [hm1, hm2] at this ⊢
        exact this
  · rw [hev2, hev1]
    simp

/-- Decomposition of a successful manual (no-tool) link removal. -/
theorem manual_remove_elim {env : Env} {c : Config} {cp : String} {st st1 : St}
    (hchk : env.lookPathOk "chkconfig" = false)
    (hupd : env.lookPathOk "update-rc.d" = false)
    (h : manageSymlinks env c cp false st = (st1, .ok ())) :
    ∃ base, base = (if (st.fs "/etc/rc.d/").isSome then "/etc/rc.d" else "/etc") ∧
      (∀ q, st1.fs q = if q ∈ startLinkPaths base c.name ++ stopLinkPaths base c.name
            then none else st.fs q) ∧
      st1.events = st.events ++
        (startLinkPaths base c.name ++ stopLinkPaths base c.name).map
          (fun p => Event.okOp (.remove p)) := by
  unfold manageSymlinks at h
  simp only [hchk, hupd, Bool.false_eq_true, if_false, reduceIte] at h
  split at h
  next hcond =>
    simp at h
  next hcond =>
  refine ⟨if (st.fs "/etc/rc.d/").isSome then "/etc/rc.d" else "/etc", rfl, ?_⟩
  split at h
  next stA e h1 =>
    simp at h
  next stA a h1 =>
  obtain ⟨hfs1, hev1⟩ := removeLinks_ok _ _ _ h1
  have h2 := liftE_ok h
  obtain ⟨hfs2, hev2⟩ := removeLinks_ok _ _ _ h2
  refine ⟨?_, ?_⟩
  · intro q
    have := hfs2 q
    rw [hfs1] at this
    by_cases hm2 : q ∈ stopLinkPaths (if (st.fs "/etc/rc.d/").isSome then "/etc/rc.d" else "/etc") c.name
    · simp [hm2] at this ⊢
      exact this
    · by_cases hm1 : q ∈ startLinkPaths (if (st.fs "/etc/rc.d/").isSome then "/etc/rc.d" else "/etc") c.name
      · simp [hm1, hm2] at this ⊢
        exact this
      · simp [hm1, hm2] at this ⊢
        exact this
  · rw [hev2, hev1]
    simp

end SysV

namespace SysV

/-- The loop-generated start link paths coincide with the claimed ones. -/
theorem startLinkPaths_eq (base name : String) :
    startLinkPaths base name = claimStartLinks base name := by
  have hsplit : splitChars defaultStartLevels = ["2", "3", "4", "5"] := rfl
  unfold startLinkPaths claimStartLinks
  rw [hsplit]
  simp only [List.map_cons, List.map_nil, startLinkPath, defaultStartPriority,
    String.append_assoc, List.cons.injEq, and_true]
  exact ⟨rfl, rfl, rfl, rfl⟩

/-- The loop-generated stop link paths coincide with the claimed ones. -/
theorem stopLinkPaths_eq (base name : String) :
    stopLinkPaths base name = claimStopLinks base name := by
  have hsplit : splitChars defaultStopLevels = ["0", "1", "6"] := rfl
  unfold stopLinkPaths claimStopLinks
  rw [hsplit]
  simp only [List.map_cons, List.map_nil, stopLinkPath, defaultStopPriority,
    String.append_assoc, List.cons.injEq, and_true]
  exact ⟨rfl, rfl, rfl⟩

/-- Claim C4: the flavor detector returns redhat when the Red-Hat
function file exists; otherwise it terminates the process (exit 1 with a
diagnostic on the error stream) when the LSB function file is absent;
otherwise it returns debian when `start-stop-daemon` is resolvable;
otherwise it returns lsb — in this priority order, first match wins. -/
theorem flavour_detector_priority (env : Env) (st : St) :
    ((st.fs "/etc/rc.d/init.d/functions").isSome = true →
      determineDistroFlavour env st = (st, .ok "redhat")) ∧
    (st.fs "/etc/rc.d/init.d/functions" = none →
      st.fs "/lib/lsb/init-functions" = none →
      determineDistroFlavour env st =
        (addEvent st (.stderr "System is lacking LSB support (/lib/lsb/init-functions)"),
         .exited 1)) ∧
    (st.fs "/etc/rc.d/init.d/functions" = none →
      (st.fs "/lib/lsb/init-functions").isSome = true →
      env.lookPathOk "start-stop-daemon" = true →
      determineDistroFlavour env st = (st, .ok "debian")) ∧
    (st.fs "/etc/rc.d/init.d/functions" = none →
      (st.fs "/lib/lsb/init-functions").isSome = true →
      env.lookPathOk "start-stop-daemon" = false →
      determineDistroFlavour env st = (st, .ok "lsb")) := by
  refine ⟨?_, ?_, ?_, ?_⟩
  · intro h1
    simp [determineDistroFlavour, h1]
  · intro h1 h2
    simp [determineDistroFlavour, h1, h2]
  · intro h1 h2 h3
    obtain ⟨v, hv⟩ := Option.isSome_iff_exists.mp h2
    simp [determineDistroFlavour, h1, hv, h3]
  · intro h1 h2 h3
    obtain ⟨v, hv⟩ := Option.isSome_iff_exists.mp h2
    simp [determineDistroFlavour, h1, hv, h3]

/-- On a host with the LSB file, no Red-Hat file, and a resolvable
`start-stop-daemon`, the detector classifies the host as debian. -/
theorem flavour_detector_priority_witness :
    determineDistroFlavour envSSD stLsbFlat = (stLsbFlat, .ok "debian") :=
  (flavour_detector_priority envSSD stLsbFlat).2.2.1 rfl rfl rfl

/-- Claim C5: in the runtime supervisor, a Start failure means Stop is
never invoked and the failure is returned; on Start success, Run blocks
until the termination signal is observed, then invokes Stop exactly once
and returns its outcome. -/
theorem run_supervisor_callbacks (p : Program) (sig : TermSignal) :
    (∀ e, p.startErr = some e →
      sysvRun p sig = ([.startCalled], some e) ∧
      (sysvRun p sig).1.count .stopCalled = 0) ∧
    (p.startErr = none →
      sysvRun p sig = ([.startCalled, .signalObserved sig, .stopCalled], p.stopErr) ∧
      (sysvRun p sig).1.count .stopCalled = 1) := by
  constructor
  · intro e he
    refine ⟨by simp [sysvRun, he], ?_⟩
    simp [sysvRun, he]
  · intro he
    refine ⟨by simp [sysvRun, he], ?_⟩
    simp [sysvRun, he]

/-- A program whose callbacks both succeed: Run returns Stop's outcome
after the signal, with Stop invoked exactly once. -/
theorem run_supervisor_callbacks_witness :
    sysvRun ⟨none, none⟩ TermSignal.sigterm =
      ([.startCalled, .signalObserved .sigterm, .stopCalled], none) :=
  ((run_supervisor_callbacks ⟨none, none⟩ TermSignal.sigterm).2 rfl).1

/-- Claim C7: with the user-service option set, Install fails with the
not-supported error before performing any filesystem operation (the
state, filesystem and trace included, is returned untouched), in both
variants, regardless of the other fields. -/
theorem install_user_service_fails (env : Env) (c : Config) (st : St)
    (hus : c.userService = true) :
    sysvInstall env c st = (st, .err .noUserService) ∧
    sysvInstallLegacy env c st = (st, .err .noUserService) := by
  constructor
  · simp [sysvInstall, configPath, hus]
  · simp [sysvInstallLegacy, configPath, hus]

/-- Concrete user-scope install rejected with the state untouched. -/
theorem install_user_service_fails_witness :
    sysvInstall envNoTools cfgUser stLsbFlat = (stLsbFlat, .err .noUserService) :=
  (install_user_service_fails envNoTools cfgUser stLsbFlat rfl).1

/-- Claim C8: Restart invokes Stop first; if Stop fails its error is
returned and Start is never attempted; otherwise Restart sleeps 50ms and
then invokes Start, returning its outcome. -/
theorem restart_stop_then_start (env : Env) (c : Config) (st : St) :
    (env.runOk ["service", c.name, "stop"] = false →
      sysvRestart env c st =
        (addEvent st (.errOp (.runCmd ["service", c.name, "stop"])
            (.serviceCmdFailed ["service", c.name, "stop"])),
         .error (.serviceCmdFailed ["service", c.name, "stop"]))) ∧
    (env.runOk ["service", c.name, "stop"] = true →
      sysvRestart env c st =
        sysvStart env c
          (addEvent (addEvent st (.okOp (.runCmd ["service", c.name, "stop"])))
            (.slept 50))) := by
  constructor
  · intro hstop
    simp [sysvRestart, sysvStop, runCmdOp, hstop]
  · intro hstop
    simp [sysvRestart, sysvStop, runCmdOp, hstop]

/-- Concrete restart whose stop request fails: the stop error is
returned and no start is attempted. -/
theorem restart_stop_then_start_witness :
    sysvRestart envStopFails cfgDemo stLsbFlat =
      (addEvent stLsbFlat (.errOp (.runCmd ["service", "n", "stop"])
          (.serviceCmdFailed ["service", "n", "stop"])),
       .error (.serviceCmdFailed ["service", "n", "stop"])) :=
  (restart_stop_then_start envStopFails cfgDemo stLsbFlat).1 rfl

/-- Claim C6: when a control script already exists at
`/etc/init.d/<Name>`, Install (either variant) fails with the
already-exists error and makes no filesystem change at all: the state is
returned untouched, before any write, chmod or link creation. -/
theorem install_existing_script_fails (env : Env) (c : Config) (st : St) (pv : String)
    (hus : c.userService = false)
    (hep : c.execPath = some pv)
    (hfl : (st.fs "/etc/rc.d/init.d/functions").isSome = true ∨
      (st.fs "/lib/lsb/init-functions").isSome = true)
    (hex : (st.fs ("/etc/init.d/" ++ c.name)).isSome = true) :
    sysvInstall env c st = (st, .err (.alreadyExists ("/etc/init.d/" ++ c.name))) ∧
    sysvInstallLegacy env c st = (st, .err (.alreadyExists ("/etc/init.d/" ++ c.name))) := by
  obtain ⟨f, hdf⟩ := @flavour_returns env st hfl
  constructor
  · simp [sysvInstall, configPath, hus, hep, hdf, hex]
  · simp [sysvInstallLegacy, configPath, hus, hep, hdf, hex]

/-- Concrete install over an existing script: already-exists error, no
filesystem change. -/
theorem install_existing_script_fails_witness :
    sysvInstall envNoTools cfgDemo stScriptExists =
      (stScriptExists, .err (.alreadyExists "/etc/init.d/n")) :=
  (install_existing_script_fails envNoTools cfgDemo stScriptExists "/usr/bin/n"
    rfl rfl (Or.inr rfl) rfl).1

end SysV

namespace SysV

/-- Claim C10: with no link tool on the search path and neither
`/etc/rc.d` nor `/etc/rc0.d` present, Install (after writing and
chmod-ing the script) and Uninstall terminate the whole process with
exit code 1 and a diagnostic on the error stream, instead of returning
an error value. -/
theorem no_rcd_layout_exits (env : Env) (c : Config) (st : St) (pv : String)
    (hus : c.userService = false)
    (hep : c.execPath = some pv)
    (hfl : (st.fs "/etc/rc.d/init.d/functions").isSome = true ∨
      (st.fs "/lib/lsb/init-functions").isSome = true)
    (hchk : env.lookPathOk "chkconfig" = false)
    (hupd : env.lookPathOk "update-rc.d" = false)
    (hcp : st.fs ("/etc/init.d/" ++ c.name) = none)
    (hcf : env.createFail ("/etc/init.d/" ++ c.name) = false)
    (hmf : env.chmodFail ("/etc/init.d/" ++ c.name) = false)
    (hrcd : st.fs "/etc/rc.d/" = none)
    (hrc0 : st.fs "/etc/rc0.d" = none) :
    ((sysvInstall env c st).2 = .exited 1 ∧
      (sysvInstall env c st).1.events = st.events ++
        [Event.okOp (.create ("/etc/init.d/" ++ c.name)),
         Event.okOp (.chmod ("/etc/init.d/" ++ c.name) 493),
         Event.stderr "FIXME: no suitable rc.d directory found in /etc"]) ∧
    sysvUninstall env c st =
      (addEvent st (.stderr "FIXME: no suitable rc.d directory found in /etc"),
       .exited 1) := by
  have hne1 : ¬(("/etc/rc.d/" : String) = "/etc/init.d/" ++ c.name) :=
    fun hh => (configPath_ne_probes c.name).1 hh.symm
  have hne2 : ¬(("/etc/rc0.d" : String) = "/etc/init.d/" ++ c.name) :=
    fun hh => (configPath_ne_probes c.name).2 hh.symm
  obtain ⟨f, hdf⟩ := @flavour_returns env st hfl
  refine ⟨?_, ?_⟩
  · have hinst : sysvInstall env c st =
        (addEvent (addEvent (addEvent { st with
            fs := fsUpdate (fsUpdate st.fs ("/etc/init.d/" ++ c.name)
              (some (.file 438))) ("/etc/init.d/" ++ c.name)
              (some (chmodEntry (.file 438) 493)) }
          (.okOp (.create ("/etc/init.d/" ++ c.name))))
          (.okOp (.chmod ("/etc/init.d/" ++ c.name) 493)))
          (.stderr "FIXME: no suitable rc.d directory found in /etc"),
         .exited 1) := by
      simp [sysvInstall, configPath, hus, hep, hdf, hcp, osCreate, hcf, osChmod,
        manageSymlinks, hchk, hupd, fsUpdate, hne1, hne2, hrcd, hrc0, hmf, addEvent]
    rw [hinst]
    constructor
    · rfl
    · simp [addEvent]
  · simp [sysvUninstall, configPath, hus, manageSymlinks, hchk, hupd, hrcd, hrc0]

/-- Concrete host with LSB support but no rc.d layout: both operations
terminate the process. -/
theorem no_rcd_layout_exits_witness :
    (sysvInstall envNoTools cfgDemo stNoRcd).2 = .exited 1 ∧
    (sysvUninstall envNoTools cfgDemo stNoRcd).2 = .exited 1 := by
  have h := no_rcd_layout_exits envNoTools cfgDemo stNoRcd "/usr/bin/n"
    rfl rfl (Or.inr rfl) rfl rfl rfl rfl rfl rfl rfl
  exact ⟨h.1.1, by rw [h.2]⟩

/-- Claim C9: with no native link tool on the search path, a successful
manual link installation creates links to the control script at exactly
the paths `<base>/rc<N>.d/S50<Name>` for N in 2, 3, 4, 5 and
`<base>/rc<N>.d/K02<Name>` for N in 0, 1, 6, where `<base>` is
`/etc/rc.d` when that directory exists and `/etc` otherwise; nothing
else in the filesystem changes. -/
theorem manual_activation_links_exact (env : Env) (c : Config) (cp : String) (st st1 : St)
    (hchk : env.lookPathOk "chkconfig" = false)
    (hupd : env.lookPathOk "update-rc.d" = false)
    (h : manageSymlinks env c cp true st = (st1, .ok ())) :
    ∀ q, st1.fs q = if q ∈ claimLinks (claimBase st) c.name
      then some (Entry.link cp) else st.fs q := by
  obtain ⟨base, hbase, -, hfs, -⟩ := manual_install_elim hchk hupd h
  have hcb : claimBase st = base := hbase.symm
  intro q
  rw [hfs q, hcb]
  unfold claimLinks
  rw [← startLinkPaths_eq, ← stopLinkPaths_eq]

/-- Concrete manual installation on a flat layout: the rc2 start link is
created, pointing at the control script. -/
theorem manual_activation_links_exact_witness :
    ((manageSymlinks envNoTools cfgDemo "/etc/init.d/n" true stLsbFlat).1).fs
        "/etc/rc2.d/S50n" =
      (if "/etc/rc2.d/S50n" ∈ claimLinks (claimBase stLsbFlat) "n"
       then some (Entry.link "/etc/init.d/n") else stLsbFlat.fs "/etc/rc2.d/S50n") :=
  manual_activation_links_exact envNoTools cfgDemo "/etc/init.d/n" stLsbFlat
    ((manageSymlinks envNoTools cfgDemo "/etc/init.d/n" true stLsbFlat).1)
    rfl rfl rfl "/etc/rc2.d/S50n"

end SysV

namespace SysV

/-- Claim C2 (amended to the canonical variant): a successful canonical
Install followed by a successful canonical Uninstall restores the
filesystem exactly to its pre-install state, and the Uninstall trace is
link-management events first, followed by the removal of the control
script as its last action. -/
theorem install_uninstall_roundtrip (env : Env) (c : Config) (st0 st1 st2 : St)
    (hi : sysvInstall env c st0 = (st1, .ok ()))
    (hu : sysvUninstall env c st1 = (st2, .ok ())) :
    (∀ q, st2.fs q = st0.fs q) ∧
    ∃ pre, st2.events = st1.events ++ pre ++
        [Event.okOp (.remove ("/etc/init.d/" ++ c.name))] ∧
      ∀ e ∈ pre, linkMgmtEvent ("/etc/init.d/" ++ c.name) e = true := by
  obtain ⟨hus, hfs0, stC, hfsC, hevC, hms⟩ := sysvInstall_ok_elim hi
  unfold sysvUninstall at hu
  split at hu
  next e heq =>
    rw [show configPath c = Except.ok ("/etc/init.d/" ++ c.name) from by
      simp [configPath, hus]] at heq
    exact Except.noConfusion heq
  next cp' heq =>
  have hcp' : cp' = "/etc/init.d/" ++ c.name := by
    rw [show configPath c = Except.ok ("/etc/init.d/" ++ c.name) from by
      simp [configPath, hus]] at heq
    injection heq with hv
    exact hv.symm
  subst hcp'
  split at hu
  next stE e hmu =>
    simp at hu
  next stE n hmu =>
    simp at hu
  next stE a hmu =>
  cases a
  have hrem := liftE_ok hu
  obtain ⟨hEsome, h2fs, h2ev⟩ := osRemove_ok hrem
  by_cases hchk : env.lookPathOk "chkconfig" = true
  · -- chkconfig route on both sides
    unfold manageSymlinks at hms hmu
    rw [if_pos hchk] at hms hmu
    simp only [reduceIte] at hms hmu
    have hmsE := liftE_ok hms
    obtain ⟨-, hfs1, hev1⟩ := runCmdOp_ok hmsE
    have hmuE := liftE_ok hmu
    obtain ⟨-, hfs2, hev2⟩ := runCmdOp_ok hmuE
    constructor
    · intro q
      rw [h2fs]
      unfold fsUpdate
      by_cases hq : q = "/etc/init.d/" ++ c.name
      · rw [if_pos hq, hq, hfs0]
      · rw [if_neg hq, hfs2, hfs1, hfsC q, if_neg hq]
    · refine ⟨[Event.okOp (.runCmd ["chkconfig", "--del", c.name])], ?_, ?_⟩
      · rw [h2ev, hev2]
        simp
      · intro e he
        simp only [List.mem_singleton] at he
        subst he
        rfl
  · by_cases hupd : env.lookPathOk "update-rc.d" = true
    · -- update-rc.d route on both sides
      unfold manageSymlinks at hms hmu
      rw [if_neg hchk, if_pos hupd] at hms hmu
      simp only [reduceIte] at hms hmu
      have hmsE := liftE_ok hms
      obtain ⟨-, hfs1, hev1⟩ := runCmdOp_ok hmsE
      have hmuE := liftE_ok hmu
      obtain ⟨-, hfs2, hev2⟩ := runCmdOp_ok hmuE
      constructor
      · intro q
        rw [h2fs]
        unfold fsUpdate
        by_cases hq : q = "/etc/init.d/" ++ c.name
        · rw [if_pos hq, hq, hfs0]
        · rw [if_neg hq, hfs2, hfs1, hfsC q, if_neg hq]
      · refine ⟨[Event.okOp (.runCmd ["update-rc.d", "-f", c.name, "remove"])], ?_, ?_⟩
        · rw [h2ev, hev2]
          simp
        · intro e he
          simp only [List.mem_singleton] at he
          subst he
          rfl
    · -- manual route on both sides
      have hchk' : env.lookPathOk "chkconfig" = false := by simpa using hchk
      have hupd' : env.lookPathOk "update-rc.d" = false := by simpa using hupd
      obtain ⟨base, hbase, hfresh, hfs1, hev1⟩ := manual_install_elim hchk' hupd' hms
      have hb : base = "/etc/rc.d" ∨ base = "/etc" := by
        rw [hbase]
        by_cases hx : (stC.fs "/etc/rc.d/").isSome = true <;> simp [hx]
      have hnm1 : ("/etc/rc.d/" : String) ∉
          startLinkPaths base c.name ++ stopLinkPaths base c.name :=
        fun hmem => (links_ne_special hb hmem).1 rfl
      have hstC : stC.fs "/etc/rc.d/" = st0.fs "/etc/rc.d/" := by
        rw [hfsC "/etc/rc.d/",
          if_neg (fun hh => (configPath_ne_probes c.name).1 (Eq.symm hh))]
      have hprc : st1.fs "/etc/rc.d/" = stC.fs "/etc/rc.d/" := by
        rw [hfs1 "/etc/rc.d/", if_neg hnm1]
      have hbase' : (if (st1.fs "/etc/rc.d/").isSome then "/etc/rc.d" else "/etc") = base := by
        rw [hprc, hbase]
      obtain ⟨base2, hbase2, hfs2, hev2⟩ := manual_remove_elim hchk' hupd' hmu
      have hb2 : base2 = base := by
        rw [hbase2]
        exact hbase'
      rw [hb2] at hfs2 hev2
      constructor
      · intro q
        rw [h2fs]
        unfold fsUpdate
        by_cases hq : q = "/etc/init.d/" ++ c.name
        · rw [if_pos hq, hq, hfs0]
        · rw [if_neg hq, hfs2 q]
          by_cases hm : q ∈ startLinkPaths base c.name ++ stopLinkPaths base c.name
          · rw [if_pos hm]
            have hfr := hfresh q hm
            rw [hfsC q, if_neg hq] at hfr
            exact hfr.symm
          · rw [if_neg hm, hfs1 q, if_neg hm, hfsC q, if_neg hq]
      · refine ⟨(startLinkPaths base c.name ++ stopLinkPaths base c.name).map
            (fun p => Event.okOp (.remove p)), ?_, ?_⟩
        · rw [h2ev, hev2]
        · intro e he
          rcases List.mem_map.mp he with ⟨p, hp, rfl⟩
          have hpne : p ≠ "/etc/init.d/" ++ c.name := (links_ne_special hb hp).2.2
          simp [linkMgmtEvent, beq_eq_false_iff_ne, hpne]

end SysV

namespace SysV

/-- Concrete canonical round trip on a flat LSB host: the rc2 start link
location is restored to its pre-install state. -/
theorem install_uninstall_roundtrip_witness :
    ((sysvUninstall envNoTools cfgDemo
        (sysvInstall envNoTools cfgDemo stLsbFlat).1).1).fs "/etc/rc2.d/S50n" =
      stLsbFlat.fs "/etc/rc2.d/S50n" :=
  (install_uninstall_roundtrip envNoTools cfgDemo stLsbFlat
    (sysvInstall envNoTools cfgDemo stLsbFlat).1
    (sysvUninstall envNoTools cfgDemo (sysvInstall envNoTools cfgDemo stLsbFlat).1).1
    rfl rfl).1 "/etc/rc2.d/S50n"

/-- The legacy variant violates the round-trip claim: Install and then
Uninstall both succeed, yet the rc2 start activation link, absent before
installation, is still present afterwards. -/
theorem install_uninstall_roundtrip_counterexample :
    (sysvInstallLegacy envNoTools cfgDemo stLsbFlat).2 = .ok () ∧
    (sysvUninstallLegacy envNoTools cfgDemo
        (sysvInstallLegacy envNoTools cfgDemo stLsbFlat).1).2 = .ok () ∧
    ((sysvUninstallLegacy envNoTools cfgDemo
        (sysvInstallLegacy envNoTools cfgDemo stLsbFlat).1).1).fs "/etc/rc2.d/S50n" =
      some (.link "/etc/init.d/n") ∧
    stLsbFlat.fs "/etc/rc2.d/S50n" = none :=
  ⟨rfl, rfl, rfl, rfl⟩

end SysV

namespace SysV

/-- Prepending an all-successful event block preserves the surfacing
contract (`Except` version). -/
theorem ioSurfacedE_extend {old d1 : List Event} {stA st1 : St} {r : Except Err Unit}
    (hA : stA.events = old ++ d1) (hok : ∀ e ∈ d1, okEvent e = true)
    (h : ioSurfacedE stA.events st1 r) : ioSurfacedE old st1 r := by
  obtain ⟨d2, he, hd⟩ := h
  refine ⟨d1 ++ d2, by rw [he, hA, List.append_assoc], ?_⟩
  rcases hd with hall | ⟨pre, op, er, rfl, hpre, hr⟩
  · left
    intro e hme
    rcases List.mem_append.mp hme with h' | h'
    · exact hok e h'
    · exact hall e h'
  · right
    refine ⟨d1 ++ pre, op, er, by rw [List.append_assoc], ?_, hr⟩
    intro e hme
    rcases List.mem_append.mp hme with h' | h'
    · exact hok e h'
    · exact hpre e h'

/-- Prepending an all-successful event block preserves the surfacing
contract (`Res` version). -/
theorem ioSurfaced_extend {old d1 : List Event} {stA st1 : St} {r : Res Unit}
    (hA : stA.events = old ++ d1) (hok : ∀ e ∈ d1, okEvent e = true)
    (h : ioSurfaced stA.events st1 r) : ioSurfaced old st1 r := by
  obtain ⟨d2, he, hd⟩ := h
  refine ⟨d1 ++ d2, by rw [he, hA, List.append_assoc], ?_⟩
  rcases hd with hall | ⟨pre, op, er, rfl, hpre, hr⟩
  · left
    intro e hme
    rcases List.mem_append.mp hme with h' | h'
    · exact hok e h'
    · exact hall e h'
  · right
    refine ⟨d1 ++ pre, op, er, by rw [List.append_assoc], ?_, hr⟩
    intro e hme
    rcases List.mem_append.mp hme with h' | h'
    · exact hok e h'
    · exact hpre e h'

/-- The surfacing contract survives the `liftE` coercion. -/
theorem ioSurfaced_liftE {old : List Event} {x : St × Except Err Unit}
    (h : ioSurfacedE old x.1 x.2) : ioSurfaced old (liftE x).1 (liftE x).2 := by
  rcases x with ⟨stA, rA⟩
  rcases rA with e | ⟨⟩
  · obtain ⟨d, hd, hc⟩ := h
    refine ⟨d, hd, ?_⟩
    rcases hc with hall | ⟨pre, op, er, hsplit, hpre, hr⟩
    · exact Or.inl hall
    · refine Or.inr ⟨pre, op, er, hsplit, hpre, ?_⟩
      injection hr with h'
      rw [h']
      rfl
  · obtain ⟨d, hd, hc⟩ := h
    refine ⟨d, hd, ?_⟩
    rcases hc with hall | ⟨pre, op, er, hsplit, hpre, hr⟩
    · exact Or.inl hall
    · exact Except.noConfusion hr

/-- A returned error with an empty appended block satisfies the
contract (non-I/O precondition failures append no events). -/
theorem ioSurfaced_pure {old : List Event} {st1 : St} {r : Res Unit}
    (h : st1.events = old) : ioSurfaced old st1 r :=
  ⟨[], by simp [h], Or.inl (by simp)⟩

/-- `osCreate` satisfies the surfacing contract. -/
theorem osCreate_surf (env : Env) (p : String) (st : St) :
    ioSurfacedE st.events (osCreate env p st).1 (osCreate env p st).2 := by
  unfold osCreate
  split
  · exact ⟨[.errOp (.create p) (.createFailed p)], by simp [addEvent],
      Or.inr ⟨[], .create p, .createFailed p, by simp, by simp, rfl⟩⟩
  · exact ⟨[.okOp (.create p)], by simp [addEvent], Or.inl (by simp [okEvent])⟩

/-- `osChmod` satisfies the surfacing contract. -/
theorem osChmod_surf (env : Env) (p : String) (mode : Nat) (st : St) :
    ioSurfacedE st.events (osChmod env p mode st).1 (osChmod env p mode st).2 := by
  unfold osChmod
  split
  · exact ⟨[.errOp (.chmod p mode) (.chmodFailed p)], by simp [addEvent],
      Or.inr ⟨[], .chmod p mode, .chmodFailed p, by simp, by simp, rfl⟩⟩
  · split
    · exact ⟨[.errOp (.chmod p mode) (.chmodFailed p)], by simp [addEvent],
        Or.inr ⟨[], .chmod p mode, .chmodFailed p, by simp, by simp, rfl⟩⟩
    · exact ⟨[.okOp (.chmod p mode)], by simp [addEvent], Or.inl (by simp [okEvent])⟩

/-- `osSymlink` satisfies the surfacing contract. -/
theorem osSymlink_surf (env : Env) (t p : String) (e : Err) (st : St) :
    ioSurfacedE st.events (osSymlink env t p e st).1 (osSymlink env t p e st).2 := by
  unfold osSymlink
  split
  · exact ⟨[.errOp (.symlink t p) e], by simp [addEvent],
      Or.inr ⟨[], .symlink t p, e, by simp, by simp, rfl⟩⟩
  · exact ⟨[.okOp (.symlink t p)], by simp [addEvent], Or.inl (by simp [okEvent])⟩

/-- `osRemove` satisfies the surfacing contract. -/
theorem osRemove_surf (env : Env) (p : String) (e : Err) (st : St) :
    ioSurfacedE st.events (osRemove env p e st).1 (osRemove env p e st).2 := by
  unfold osRemove
  split
  · exact ⟨[.errOp (.remove p) e], by simp [addEvent],
      Or.inr ⟨[], .remove p, e, by simp, by simp, rfl⟩⟩
  · exact ⟨[.okOp (.remove p)], by simp [addEvent], Or.inl (by simp [okEvent])⟩

/-- `runCmdOp` satisfies the surfacing contract. -/
theorem runCmdOp_surf (env : Env) (args : List String) (e : Err) (st : St) :
    ioSurfacedE st.events (runCmdOp env args e st).1 (runCmdOp env args e st).2 := by
  unfold runCmdOp
  split
  · exact ⟨[.okOp (.runCmd args)], by simp [addEvent], Or.inl (by simp [okEvent])⟩
  · exact ⟨[.errOp (.runCmd args) e], by simp [addEvent],
      Or.inr ⟨[], .runCmd args, e, by simp, by simp, rfl⟩⟩

/-- An `Except`-level success under the contract appended only
successful events. -/
theorem ioSurfacedE_ok_all {old : List Event} {st1 : St}
    (h : ioSurfacedE old st1 (.ok ())) :
    ∃ d, st1.events = old ++ d ∧ ∀ e ∈ d, okEvent e = true := by
  obtain ⟨d, hd, hc⟩ := h
  rcases hc with hall | ⟨pre, op, er, hsplit, hpre, hr⟩
  · exact ⟨d, hd, hall⟩
  · exact Except.noConfusion hr

/-- A `Res`-level success under the contract appended only successful
events. -/
theorem ioSurfaced_ok_all {old : List Event} {st1 : St}
    (h : ioSurfaced old st1 (.ok ())) :
    ∃ d, st1.events = old ++ d ∧ ∀ e ∈ d, okEvent e = true := by
  obtain ⟨d, hd, hc⟩ := h
  rcases hc with hall | ⟨pre, op, er, hsplit, hpre, hr⟩
  · exact ⟨d, hd, hall⟩
  · exact Res.noConfusion hr

/-- An `Except` error becomes the corresponding `Res` error under the
contract. -/
theorem ioSurfacedE_to_err {old : List Event} {st1 : St} {e : Err}
    (h : ioSurfacedE old st1 (.error e)) : ioSurfaced old st1 (.err e) := by
  obtain ⟨d, hd, hc⟩ := h
  refine ⟨d, hd, ?_⟩
  rcases hc with hall | ⟨pre, op, er, hsplit, hpre, hr⟩
  · exact Or.inl hall
  · refine Or.inr ⟨pre, op, er, hsplit, hpre, ?_⟩
    injection hr with h'
    rw [h']

/-- The symlink-creation loop satisfies the surfacing contract. -/
theorem installLinks_surf (env : Env) (cp : String) (mk : String → Err) :
    ∀ (ps : List String) (st : St),
      ioSurfacedE st.events (installLinks env cp mk ps st).1
        (installLinks env cp mk ps st).2 := by
  intro ps
  induction ps with
  | nil =>
    intro st
    exact ⟨[], by simp [installLinks], Or.inl (by simp)⟩
  | cons p rest ih =>
    intro st
    have hop := osSymlink_surf env cp p (mk p) st
    simp only [installLinks]
    rcases hs : osSymlink env cp p (mk p) st with ⟨stA, rA⟩
    rw [hs] at hop
    rcases rA with e | ⟨⟩
    · exact hop
    · obtain ⟨d1, hd1, hall⟩ := ioSurfacedE_ok_all hop
      exact ioSurfacedE_extend hd1 hall (ih stA)

/-- The symlink-removal loop satisfies the surfacing contract. -/
theorem removeLinks_surf (env : Env) (mk : String → Err) :
    ∀ (ps : List String) (st : St),
      ioSurfacedE st.events (removeLinks env mk ps st).1
        (removeLinks env mk ps st).2 := by
  intro ps
  induction ps with
  | nil =>
    intro st
    exact ⟨[], by simp [removeLinks], Or.inl (by simp)⟩
  | cons p rest ih =>
    intro st
    have hop := osRemove_surf env p (mk p) st
    simp only [removeLinks]
    rcases hs : osRemove env p (mk p) st with ⟨stA, rA⟩
    rw [hs] at hop
    rcases rA with e | ⟨⟩
    · exact hop
    · obtain ⟨d1, hd1, hall⟩ := ioSurfacedE_ok_all hop
      exact ioSurfacedE_extend hd1 hall (ih stA)

end SysV

namespace SysV

/-- Flavour detection never returns an error value. -/
theorem flavour_no_err {env : Env} {st stF : St} {e : Err} :
    determineDistroFlavour env st ≠ (stF, .err e) := by
  unfold determineDistroFlavour
  split_ifs <;> intro h <;> simp only [Prod.mk.injEq] at h <;> exact Res.noConfusion h.2

/-- When flavour detection exits, the state gained exactly the LSB
diagnostic on the error stream. -/
theorem flavour_exit_elim {env : Env} {st stF : St} {n : Nat}
    (h : determineDistroFlavour env st = (stF, .exited n)) :
    stF = addEvent st (.stderr "System is lacking LSB support (/lib/lsb/init-functions)") := by
  unfold determineDistroFlavour at h
  split_ifs at h <;> simp only [Prod.mk.injEq] at h
  · exact Res.noConfusion h.2
  · exact h.1.symm
  · exact Res.noConfusion h.2
  · exact Res.noConfusion h.2

/-- `manageSymlinks` satisfies the surfacing contract on every route. -/
theorem manageSymlinks_surf (env : Env) (c : Config) (cp : String) (inst : Bool) (st : St) :
    ioSurfaced st.events (manageSymlinks env c cp inst st).1
      (manageSymlinks env c cp inst st).2 := by
  by_cases hchk : env.lookPathOk "chkconfig" = true
  · have hd : manageSymlinks env c cp inst st =
        liftE (runCmdOp env
          (if inst then ["chkconfig", "--add", c.name] else ["chkconfig", "--del", c.name])
          (.cmdFailed (if inst then ["chkconfig", "--add", c.name]
            else ["chkconfig", "--del", c.name])) st) := by
      unfold manageSymlinks
      rw [if_pos hchk]
    rw [hd]
    exact ioSurfaced_liftE (runCmdOp_surf env _ _ st)
  · by_cases hupd : env.lookPathOk "update-rc.d" = true
    · have hd : manageSymlinks env c cp inst st =
          liftE (runCmdOp env
            (if inst then ["update-rc.d", c.name, "defaults"]
              else ["update-rc.d", "-f", c.name, "remove"])
            (.cmdFailed (if inst then ["update-rc.d", c.name, "defaults"]
              else ["update-rc.d", "-f", c.name, "remove"])) st) := by
        unfold manageSymlinks
        rw [if_neg hchk, if_pos hupd]
      rw [hd]
      exact ioSurfaced_liftE (runCmdOp_surf env _ _ st)
    · by_cases hcond : ((st.fs "/etc/rc.d/").isNone = true ∧ (st.fs "/etc/rc0.d").isNone = true)
      · have hd : manageSymlinks env c cp inst st =
            (addEvent st (.stderr "FIXME: no suitable rc.d directory found in /etc"),
             .exited 1) := by
          unfold manageSymlinks
          rw [if_neg hchk, if_neg hupd, if_pos hcond]
        rw [hd]
        exact ⟨[.stderr "FIXME: no suitable rc.d directory found in /etc"],
          by simp [addEvent], Or.inl (by simp [okEvent])⟩
      · cases inst with
        | true =>
          have hd : manageSymlinks env c cp true st =
              (match installLinks env cp (fun p => Err.startupLinkFailed p)
                  (startLinkPaths (if (st.fs "/etc/rc.d/").isSome then "/etc/rc.d" else "/etc")
                    c.name) st with
               | (st1, .error e) => (st1, Res.err e)
               | (st1, .ok _) =>
                 liftE (installLinks env cp (fun p => Err.shutdownLinkFailed p)
                   (stopLinkPaths (if (st.fs "/etc/rc.d/").isSome then "/etc/rc.d" else "/etc")
                     c.name) st1)) := by
            unfold manageSymlinks
            rw [if_neg hchk, if_neg hupd, if_neg hcond]
            rfl
          rw [hd]
          have hop := installLinks_surf env cp (fun p => Err.startupLinkFailed p)
            (startLinkPaths (if (st.fs "/etc/rc.d/").isSome then "/etc/rc.d" else "/etc") c.name)
            st
          rcases h1 : installLinks env cp (fun p => Err.startupLinkFailed p)
              (startLinkPaths (if (st.fs "/etc/rc.d/").isSome then "/etc/rc.d" else "/etc")
                c.name) st with ⟨stA, rA⟩
          rw [h1] at hop
          rcases rA with e | ⟨⟩
          · exact ioSurfacedE_to_err hop
          · obtain ⟨d1, hd1, hall⟩ := ioSurfacedE_ok_all hop
            exact ioSurfaced_extend hd1 hall
              (ioSurfaced_liftE (installLinks_surf env cp (fun p => Err.shutdownLinkFailed p)
                (stopLinkPaths (if (st.fs "/etc/rc.d/").isSome then "/etc/rc.d" else "/etc")
                  c.name) stA))
        | false =>
          have hd : manageSymlinks env c cp false st =
              (match removeLinks env (fun p => Err.startupLinkRemoveFailed p)
                  (startLinkPaths (if (st.fs "/etc/rc.d/").isSome then "/etc/rc.d" else "/etc")
                    c.name) st with
               | (st1, .error e) => (st1, Res.err e)
               | (st1, .ok _) =>
                 liftE (removeLinks env (fun p => Err.shutdownLinkRemoveFailed p)
                   (stopLinkPaths (if (st.fs "/etc/rc.d/").isSome then "/etc/rc.d" else "/etc")
                     c.name) st1)) := by
            unfold manageSymlinks
            rw [if_neg hchk, if_neg hupd, if_neg hcond]
            rfl
          rw [hd]
          have hop := removeLinks_surf env (fun p => Err.startupLinkRemoveFailed p)
            (startLinkPaths (if (st.fs "/etc/rc.d/").isSome then "/etc/rc.d" else "/etc") c.name)
            st
          rcases h1 : removeLinks env (fun p => Err.startupLinkRemoveFailed p)
              (startLinkPaths (if (st.fs "/etc/rc.d/").isSome then "/etc/rc.d" else "/etc")
                c.name) st with ⟨stA, rA⟩
          rw [h1] at hop
          rcases rA with e | ⟨⟩
          · exact ioSurfacedE_to_err hop
          · obtain ⟨d1, hd1, hall⟩ := ioSurfacedE_ok_all hop
            exact ioSurfaced_extend hd1 hall
              (ioSurfaced_liftE (removeLinks_surf env (fun p => Err.shutdownLinkRemoveFailed p)
                (stopLinkPaths (if (st.fs "/etc/rc.d/").isSome then "/etc/rc.d" else "/etc")
                  c.name) stA))

/-- Claim C3 (amended to the canonical variant): during canonical
Install and Uninstall, either no attempted filesystem or command
operation fails, or execution stops at the first failing operation and
its error is exactly the returned one — no recoverable error is
silently swallowed, for every environment, definition and state. -/
theorem io_errors_surface (env : Env) (c : Config) (st : St) :
    ioSurfaced st.events (sysvInstall env c st).1 (sysvInstall env c st).2 ∧
    ioSurfaced st.events (sysvUninstall env c st).1 (sysvUninstall env c st).2 := by
  constructor
  · rcases hres : sysvInstall env c st with ⟨st1, r⟩
    show ioSurfaced st.events st1 r
    unfold sysvInstall at hres
    split at hres
    next e heq =>
      cases hres
      exact ioSurfaced_pure rfl
    next cp heq =>
    split at hres
    next hepn =>
      cases hres
      exact ioSurfaced_pure rfl
    next pv hep =>
    split at hres
    next stF e heq2 =>
      cases hres
      exact absurd heq2 flavour_no_err
    next stF n heq2 =>
      cases hres
      refine ⟨[.stderr "System is lacking LSB support (/lib/lsb/init-functions)"],
        ?_, Or.inl (by simp [okEvent])⟩
      rw [flavour_exit_elim heq2]
      simp [addEvent]
    next stF f heq2 =>
    have hstF := flavour_ok_fst heq2
    rw [hstF] at hres
    split at hres
    next hex =>
      cases hres
      exact ioSurfaced_pure rfl
    next hex =>
    split at hres
    next stA e hcr =>
      cases hres
      have hop := osCreate_surf env cp st
      rw [hcr] at hop
      exact ioSurfacedE_to_err hop
    next stA a hcr =>
    split at hres
    next stB e hch =>
      cases hres
      have hop1 := osCreate_surf env cp st
      rw [hcr] at hop1
      obtain ⟨d1, hd1, hall1⟩ := ioSurfacedE_ok_all hop1
      have hop2 := osChmod_surf env cp 493 stA
      rw [hch] at hop2
      exact ioSurfacedE_to_err (ioSurfacedE_extend hd1 hall1 hop2)
    next stB b hch =>
    have hop1 := osCreate_surf env cp st
    rw [hcr] at hop1
    obtain ⟨d1, hd1, hall1⟩ := ioSurfacedE_ok_all hop1
    have hop2 := osChmod_surf env cp 493 stA
    rw [hch] at hop2
    obtain ⟨d2, hd2, hall2⟩ := ioSurfacedE_ok_all hop2
    have hms := manageSymlinks_surf env c cp true stB
    rw [hres] at hms
    have hB : stB.events = st.events ++ (d1 ++ d2) := by
      rw [hd2, hd1, List.append_assoc]
    have hallc : ∀ e ∈ d1 ++ d2, okEvent e = true := by
      intro e he
      rcases List.mem_append.mp he with h | h
      · exact hall1 e h
      · exact hall2 e h
    exact ioSurfaced_extend hB hallc hms
  · rcases hres : sysvUninstall env c st with ⟨st1, r⟩
    show ioSurfaced st.events st1 r
    unfold sysvUninstall at hres
    split at hres
    next e heq =>
      cases hres
      exact ioSurfaced_pure rfl
    next cp heq =>
    split at hres
    next stE e hmu =>
      cases hres
      have hms := manageSymlinks_surf env c cp false st
      rw [hmu] at hms
      exact hms
    next stE n hmu =>
      cases hres
      have hms := manageSymlinks_surf env c cp false st
      rw [hmu] at hms
      exact hms
    next stE a hmu =>
    have hms := manageSymlinks_surf env c cp false st
    rw [hmu] at hms
    obtain ⟨d1, hd1, hall⟩ := ioSurfaced_ok_all hms
    have hrem := ioSurfaced_liftE (osRemove_surf env cp (.removeFailed cp) stE)
    rw [hres] at hrem
    exact ioSurfaced_extend hd1 hall hrem

/-- The legacy Install violates the surfacing claim: on a host with a
stale rc2 link the legacy symlink loop records a failed symlink
operation, yet Install still returns success — the I/O failure is
silently swallowed. -/
theorem io_errors_surface_counterexample :
    (sysvInstallLegacy envNoTools cfgDemo stStaleLink).2 = .ok () ∧
    ((sysvInstallLegacy envNoTools cfgDemo stStaleLink).1.events.all okEvent) = false :=
  ⟨rfl, rfl⟩

end SysV

namespace SysV

/-- Membership in a conditionally-empty list implies membership in the
list itself. -/
theorem mem_of_mem_iteNil {α : Type} {P : Prop} [Decidable P] {l : List α} {s : α}
    (h : s ∈ (if P then ([] : List α) else l)) : s ∈ l := by
  split at h
  · exact absurd h (List.not_mem_nil s)
  · exact h

/-- Every argument interpolation goes through `cmd`. -/
theorem argSegs_safe (c : Config) : ∀ s ∈ argSegs c, segUnsafe s = false := by
  intro s hs
  unfold argSegs at hs
  simp only [List.mem_flatten, List.mem_map] at hs
  obtain ⟨l, ⟨a, ha, rfl⟩, hl⟩ := hs
  simp only [List.mem_cons, List.mem_singleton, List.not_mem_nil, or_false] at hl
  rcases hl with rfl | rfl <;> rfl

/-- The redhat header interpolates no user-supplied value. -/
theorem redhatHeader_safe (c : Config) : ∀ s ∈ redhatHeader c, segUnsafe s = false := by
  intro s hs
  simp only [redhatHeader, List.mem_cons, List.not_mem_nil, or_false] at hs
  rcases hs with rfl | rfl | rfl | rfl | rfl <;> rfl

/-- The LSB header interpolates no user-supplied value. -/
theorem lsbHeader_safe (c : Config) : ∀ s ∈ lsbHeader c, segUnsafe s = false := by
  intro s hs
  simp only [lsbHeader, List.mem_cons, List.not_mem_nil, or_false] at hs
  rcases hs with rfl | rfl | rfl | rfl | rfl | rfl | rfl <;> rfl

/-- The shared middle section interpolates no user-supplied value. -/
theorem commonMid_safe (c : Config) (path : String) :
    ∀ s ∈ commonMid c path, segUnsafe s = false := by
  intro s hs
  simp only [commonMid, List.mem_cons, List.not_mem_nil, or_false] at hs
  rcases hs with rfl | rfl | rfl | rfl | rfl | rfl | rfl <;> rfl

/-- The shared LSB status helper is pure literal text. -/
theorem lsbStatusHelper_safe : ∀ s ∈ lsbStatusHelper, segUnsafe s = false := by
  intro s hs
  simp only [lsbStatusHelper, List.mem_singleton] at hs
  subst hs
  rfl

/-- The dispatch trailer is pure literal text. -/
theorem scriptTrailer_safe : ∀ s ∈ scriptTrailer, segUnsafe s = false := by
  intro s hs
  simp only [scriptTrailer, List.mem_singleton] at hs
  subst hs
  rfl

/-- Every user-supplied interpolation of the debian branch goes
through `cmd`. -/
theorem debianBody_safe (c : Config) : ∀ s ∈ debianBody c, segUnsafe s = false := by
  intro s hs
  unfold debianBody at hs
  simp only [List.mem_append] at hs
  rcases hs with ((((((((h | h) | h) | h) | h) | h) | h) | h) | h)
  · simp only [List.mem_singleton] at h
    subst h
    rfl
  · have h' := mem_of_mem_iteNil h
    simp only [List.mem_cons, List.mem_singleton, List.not_mem_nil, or_false] at h'
    rcases h' with rfl | rfl <;> rfl
  · simp only [List.mem_singleton] at h
    subst h
    rfl
  · have h' := mem_of_mem_iteNil h
    simp only [List.mem_cons, List.mem_singleton, List.not_mem_nil, or_false] at h'
    rcases h' with rfl | rfl <;> rfl
  · simp only [List.mem_singleton] at h
    subst h
    rfl
  · have h' := mem_of_mem_iteNil h
    simp only [List.mem_cons, List.mem_singleton, List.not_mem_nil, or_false] at h'
    rcases h' with rfl | rfl <;> rfl
  · simp only [List.mem_singleton] at h
    subst h
    rfl
  · exact argSegs_safe c s h
  · simp only [List.mem_singleton] at h
    subst h
    rfl

/-- Every user-supplied interpolation of the generic LSB branch goes
through `cmd`. -/
theorem lsbBody_safe (c : Config) : ∀ s ∈ lsbBody c, segUnsafe s = false := by
  intro s hs
  unfold lsbBody at hs
  simp only [List.mem_append] at hs
  rcases hs with ((((h | h) | h) | h) | h)
  · simp only [List.mem_singleton] at h
    subst h
    rfl
  · have h' := mem_of_mem_iteNil h
    simp only [List.mem_cons, List.mem_singleton, List.not_mem_nil, or_false] at h'
    rcases h' with rfl | rfl <;> rfl
  · simp only [List.mem_singleton] at h
    subst h
    rfl
  · exact argSegs_safe c s h
  · simp only [List.mem_singleton] at h
    subst h
    rfl

/-- In the redhat branch, the only interpolation of a user-supplied
value that skips `cmd` is the user name in `--user=`. -/
theorem redhatBody_unsafe_char (c : Config) :
    ∀ s ∈ redhatBody c, segUnsafe s = true →
      s = Seg.interp .userName c.userName false := by
  intro s hs hu
  unfold redhatBody at hs
  simp only [List.mem_append] at hs
  rcases hs with ((((h | h) | h) | h) | h)
  · simp only [List.mem_singleton] at h
    subst h
    simp [segUnsafe] at hu
  · have h' := mem_of_mem_iteNil h
    simp only [List.mem_cons, List.mem_singleton, List.not_mem_nil, or_false] at h'
    rcases h' with rfl | rfl
    · simp [segUnsafe] at hu
    · rfl
  · simp only [List.mem_singleton] at h
    subst h
    simp [segUnsafe] at hu
  · rw [argSegs_safe c s h] at hu
    exact absurd hu (by simp)
  · simp only [List.mem_singleton] at h
    subst h
    simp [segUnsafe] at hu

/-- Claim C1 (amended): in the rendered control script, every
interpolation of a user-supplied value (Arguments, WorkingDirectory,
UserName, ChRoot) passes through the shell-quoting `cmd` transform,
with one exception: the redhat flavor branch interpolates UserName raw
into the `--user=` option of the daemon invocation. -/
theorem sysv_script_user_quoting (c : Config) (path flavour : String) :
    ∀ s ∈ scriptSegs c path flavour, segUnsafe s = true →
      flavour = "redhat" ∧ s = Seg.interp .userName c.userName false := by
  intro s hs hu
  unfold scriptSegs at hs
  by_cases hf : flavour = "redhat"
  · rw [if_pos hf, if_pos hf] at hs
    refine ⟨hf, ?_⟩
    simp only [List.mem_append] at hs
    rcases hs with (((h | h) | h) | h) | h
    · simp only [List.mem_singleton] at h
      subst h
      simp [segUnsafe] at hu
    · rw [redhatHeader_safe c s h] at hu
      exact absurd hu (by simp)
    · rw [commonMid_safe c path s h] at hu
      exact absurd hu (by simp)
    · exact redhatBody_unsafe_char c s h hu
    · rw [scriptTrailer_safe s h] at hu
      exact absurd hu (by simp)
  · exfalso
    rw [if_neg hf, if_neg hf] at hs
    simp only [List.mem_append] at hs
    rcases hs with (((h | h) | h) | (h | h)) | h
    · simp only [List.mem_singleton] at h
      subst h
      simp [segUnsafe] at hu
    · rw [lsbHeader_safe c s h] at hu
      exact absurd hu (by simp)
    · rw [commonMid_safe c path s h] at hu
      exact absurd hu (by simp)
    · rw [lsbStatusHelper_safe s h] at hu
      exact absurd hu (by simp)
    · by_cases hfd : flavour = "debian"
      · rw [if_pos hfd] at h
        rw [debianBody_safe c s h] at hu
        exact absurd hu (by simp)
      · rw [if_neg hfd] at h
        rw [lsbBody_safe c s h] at hu
        exact absurd hu (by simp)
    · rw [scriptTrailer_safe s h] at hu
      exact absurd hu (by simp)

end SysV

namespace SysV

/-- The quoting claim as stated is false: rendering the redhat branch
for a definition whose user name carries shell metacharacters yields a
segment that interpolates a user-supplied value without the `cmd`
transform. -/
theorem sysv_script_user_quoting_counterexample :
    ((scriptSegs cfgMeta "/usr/bin/demo" "redhat").all fun s => !segUnsafe s) = false := by
  decide

/-- The raw-user-name segment of the concrete redhat rendering is
exactly the exception the amended claim names. -/
theorem sysv_script_user_quoting_witness :
    "redhat" = "redhat" ∧
    Seg.interp TField.userName "u;touch /tmp/pwned" false =
      Seg.interp .userName cfgMeta.userName false :=
  sysv_script_user_quoting cfgMeta "/usr/bin/demo" "redhat"
    (Seg.interp .userName "u;touch /tmp/pwned" false) (by decide) (by decide)

end SysV
